import Mathlib

/-!
Verification of the AutoTerra Terraform-generation pipeline
(`src/backend/rag_pipeline.py`, `src/backend/sandbox_testing.py`).

Python strings are modelled as `List Char` (`Str`); Python floats that
only undergo field arithmetic are modelled as `ℚ`; Python dicts (which
preserve insertion order) are modelled as association lists with
dict-update semantics (`dictUpdate`); LLM calls and subprocess calls are
modelled as oracle parameters; code that may raise returns `Except`.
-/

/-- A Python string: a list of characters. -/
abbrev Str := List Char

/-- Python substring containment test at one position:
`isPrefixB pat s` is true iff `pat` is a prefix of `s`. -/
def isPrefixB : Str → Str → Bool
  | [], _ => true
  | _ :: _, [] => false
  | a :: as, b :: bs => a == b && isPrefixB as bs

/-- Python `needle in hay` for strings: literal substring containment. -/
def hasSubstr : Str → Str → Bool
  | [], needle => isPrefixB needle []
  | c :: t, needle => isPrefixB needle (c :: t) || hasSubstr t needle

/-- Python `s.lower()` (ASCII lowering suffices for the tracked keywords). -/
def toLowerStr (s : Str) : Str := s.map Char.toLower

/-- Python `code.split('\n')`. -/
def pyLines (code : Str) : List Str := code.splitOn '\n'

/-- Python whitespace test used by `str.strip()`. -/
def isPyWs (c : Char) : Bool :=
  c == ' ' || c == '\t' || c == '\n' || c == '\r' || c == '\x0b' || c == '\x0c'

/-- Python `s.strip()`. -/
def pyStrip (s : Str) : Str :=
  ((s.dropWhile isPyWs).reverse.dropWhile isPyWs).reverse

/-- Helper for `matchingLines`: Python `enumerate(lines, start)` together with
the per-line substring test of `VariableTracker.check_usage_in_code`. -/
def matchingLinesAux (val : Str) : Nat → List Str → List Nat
  | _, [] => []
  | i, line :: rest =>
    if hasSubstr line val then i :: matchingLinesAux val (i + 1) rest
    else matchingLinesAux val (i + 1) rest

/-- The 1-indexed numbers of the lines of `code` that contain `val`
(`for i, line in enumerate(lines, 1): if var_value in line: ... append(i)`). -/
def matchingLines (code val : Str) : List Nat :=
  matchingLinesAux val 1 (pyLines code)

/-- Python dict lookup `m.get(k)` on an insertion-ordered association list. -/
def pyLookup {α : Type} : List (Str × α) → Str → Option α
  | [], _ => none
  | p :: rest, k => if p.1 = k then some p.2 else pyLookup rest k

/-- Python dict assignment `m[k] = v`: overwrite in place if the key exists
(keeping its position), otherwise append at the end. -/
def dictUpdate {α : Type} (m : List (Str × α)) (k : Str) (v : α) : List (Str × α) :=
  if m.any (fun p => decide (p.1 = k)) then
    m.map (fun p => if p.1 = k then (k, v) else p)
  else m ++ [(k, v)]

/-- The keys of an association-list dict, in insertion order. -/
def dictKeys {α : Type} (m : List (Str × α)) : List Str := m.map Prod.fst

/-- Keys are pairwise distinct (always true of a real Python dict). -/
def keysNodup {α : Type} (m : List (Str × α)) : Prop := (m.map Prod.fst).Nodup

/-- Per-variable record of `VariableTracker.variable_usage_map`:
`{'value': ..., 'used': ..., 'locations': [...]}`. -/
structure VarInfo where
  value : Str
  used : Bool
  locations : List Nat
deriving DecidableEq

/-- `VariableTracker` from `rag_pipeline.py`: `self.variables` and
`self.variable_usage_map` (`variables` is a reserved word in Lean, so that
field is called `vars` here). -/
structure VariableTracker where
  vars : List (Str × Str)
  variable_usage_map : List (Str × VarInfo)
deriving DecidableEq

/-- `VariableTracker.__init__`: both dicts start empty. -/
def VariableTracker.new : VariableTracker := ⟨[], []⟩

/-- `VariableTracker.add_variables`: `self.variables.update(variables)` and a
fresh `{'value': value, 'used': False, 'locations': []}` entry per key. -/
def VariableTracker.add_variables (t : VariableTracker)
    (vs : List (Str × Str)) : VariableTracker :=
  { vars := vs.foldl (fun acc p => dictUpdate acc p.1 p.2) t.vars
    variable_usage_map :=
      vs.foldl (fun acc p => dictUpdate acc p.1 ⟨p.2, false, []⟩)
        t.variable_usage_map }

/-- The body of `VariableTracker.check_usage_in_code`: iterate over the usage
map in order; a variable whose value occurs in `code` is appended to `used`,
marked used, and the 1-indexed numbers of the lines containing the value are
appended to its `locations`; otherwise it is appended to `unused` and marked
not used (its `locations` are left untouched). Returns
(used, unused, updated map). -/
def checkUsageList (code : Str) : List (Str × VarInfo) →
    List Str × List Str × List (Str × VarInfo)
  | [] => ([], [], [])
  | p :: rest =>
    let var_value := p.2.value
    let r := checkUsageList code rest
    if hasSubstr code var_value then
      (p.1 :: r.1, r.2.1,
        (p.1, ⟨var_value, true,
               p.2.locations ++ matchingLines code var_value⟩) :: r.2.2)
    else
      (r.1, p.1 :: r.2.1, (p.1, ⟨var_value, false, p.2.locations⟩) :: r.2.2)

/-- `VariableTracker.check_usage_in_code(code)`: returns the `(used, unused)`
pair and the tracker with its mutated usage map. -/
def VariableTracker.check_usage_in_code (t : VariableTracker) (code : Str) :
    (List Str × List Str) × VariableTracker :=
  let r := checkUsageList code t.variable_usage_map
  ((r.1, r.2.1), { t with variable_usage_map := r.2.2 })

/-- `VariableTracker.get_unused_variables`: the key/value pairs whose entry is
not marked used. -/
def VariableTracker.get_unused_variables (t : VariableTracker) :
    List (Str × Str) :=
  (t.variable_usage_map.filter (fun p => !p.2.used)).map
    (fun p => (p.1, p.2.value))

/-- How one usage-map entry is rewritten by `check_usage_in_code`
(characterisation used by the lemmas below). -/
def updInfo (code : Str) (info : VarInfo) : VarInfo :=
  if hasSubstr code info.value then
    ⟨info.value, true, info.locations ++ matchingLines code info.value⟩
  else ⟨info.value, false, info.locations⟩

/-! ### Library lemmas about the string and dict primitives -/

theorem isPrefixB_iff (p t : Str) : isPrefixB p t = true ↔ p <+: t := by
  induction p generalizing t with
  | nil => simp [isPrefixB]
  | cons a as ih =>
    cases t with
    | nil => simp [isPrefixB]
    | cons b bs =>
      simp [isPrefixB, Bool.and_eq_true, beq_iff_eq, ih, List.cons_prefix_cons]

theorem hasSubstr_iff (hay needle : Str) :
    hasSubstr hay needle = true ↔ needle <:+: hay := by
  induction hay with
  | nil => simp [hasSubstr, isPrefixB_iff]
  | cons c t ih =>
    simp [hasSubstr, Bool.or_eq_true, isPrefixB_iff, ih, List.infix_cons_iff]

theorem mem_matchingLinesAux (val : Str) (L : List Str) :
    ∀ s n : Nat, n ∈ matchingLinesAux val s L ↔
      ∃ i, i < L.length ∧ n = s + i ∧ hasSubstr (L.getD i []) val = true := by
  induction L with
  | nil => intro s n; simp [matchingLinesAux]
  | cons line rest ih =>
    intro s n
    rw [matchingLinesAux]
    split
    next h =>
      rw [List.mem_cons, ih (s + 1)]
      constructor
      · rintro (rfl | ⟨i, hi, rfl, hs⟩)
        · exact ⟨0, by simp, by simp, by simpa using h⟩
        · exact ⟨i + 1, by simpa using Nat.succ_lt_succ hi, by omega,
            by simpa using hs⟩
      · rintro ⟨i, hi, rfl, hs⟩
        cases i with
        | zero => left; simp
        | succ j =>
          right
          exact ⟨j, by simpa using Nat.lt_of_succ_lt_succ hi, by omega,
            by simpa using hs⟩
    next h =>
      rw [ih (s + 1)]
      constructor
      · rintro ⟨i, hi, rfl, hs⟩
        exact ⟨i + 1, by simpa using Nat.succ_lt_succ hi, by omega,
          by simpa using hs⟩
      · rintro ⟨i, hi, rfl, hs⟩
        cases i with
        | zero => simp at hs; exact absurd hs (by simpa using h)
        | succ j =>
          exact ⟨j, by simpa using Nat.lt_of_succ_lt_succ hi, by omega,
            by simpa using hs⟩

theorem mem_matchingLines (code val : Str) (n : Nat) :
    n ∈ matchingLines code val ↔
      ∃ i, i < (pyLines code).length ∧ n = i + 1 ∧
        val <:+: (pyLines code).getD i [] := by
  rw [matchingLines, mem_matchingLinesAux]
  constructor
  · rintro ⟨i, hi, rfl, hs⟩
    exact ⟨i, hi, by omega, (hasSubstr_iff _ _).mp hs⟩
  · rintro ⟨i, hi, rfl, hs⟩
    exact ⟨i, hi, by omega, (hasSubstr_iff _ _).mpr hs⟩

theorem pyLookup_eq_some_of_mem {α : Type} {m : List (Str × α)} {k : Str}
    {v : α} (hnd : keysNodup m) (hm : (k, v) ∈ m) : pyLookup m k = some v := by
  induction m with
  | nil => cases hm
  | cons p rest ih =>
    have hnd2 : p.1 ∉ rest.map Prod.fst ∧ (rest.map Prod.fst).Nodup := by
      rw [keysNodup, List.map_cons] at hnd
      exact List.nodup_cons.mp hnd
    rcases List.mem_cons.mp hm with h | h
    · rw [← h]; simp [pyLookup]
    · have hk : ¬ p.1 = k := by
        rintro rfl
        exact hnd2.1 (List.mem_map.mpr ⟨(p.1, v), h, rfl⟩)
      simp only [pyLookup, if_neg hk]
      exact ih hnd2.2 h

theorem mem_of_pyLookup {α : Type} {m : List (Str × α)} {k : Str} {v : α}
    (h : pyLookup m k = some v) : (k, v) ∈ m := by
  induction m with
  | nil => simp [pyLookup] at h
  | cons p rest ih =>
    rcases p with ⟨a, b⟩
    by_cases ha : a = k
    · rw [pyLookup, if_pos ha] at h
      simp only [Option.some.injEq] at h
      subst ha; subst h
      exact List.mem_cons_self _ _
    · rw [pyLookup, if_neg ha] at h
      exact List.mem_cons_of_mem _ (ih h)

theorem mem_eq_of_keysNodup {α : Type} {m : List (Str × α)} (hnd : keysNodup m)
    {k : Str} {v1 v2 : α} (h1 : (k, v1) ∈ m) (h2 : (k, v2) ∈ m) : v1 = v2 := by
  have e1 := pyLookup_eq_some_of_mem hnd h1
  have e2 := pyLookup_eq_some_of_mem hnd h2
  rw [e1] at e2
  exact Option.some.inj e2

theorem keys_dictUpdate_of_any_true {α : Type} {m : List (Str × α)} {k : Str}
    {v : α} (h : m.any (fun p => decide (p.1 = k)) = true) :
    (dictUpdate m k v).map Prod.fst = m.map Prod.fst := by
  rw [dictUpdate, if_pos h, List.map_map]
  exact List.map_congr_left (by intro p _; by_cases hp : p.1 = k <;> simp [hp])

theorem keys_dictUpdate_of_any_false {α : Type} {m : List (Str × α)} {k : Str}
    {v : α} (h : ¬ m.any (fun p => decide (p.1 = k)) = true) :
    (dictUpdate m k v).map Prod.fst = m.map Prod.fst ++ [k] := by
  rw [dictUpdate, if_neg h, List.map_append]
  rfl

theorem mem_keys_dictUpdate {α : Type} (m : List (Str × α)) (k : Str) (v : α)
    (a : Str) :
    a ∈ (dictUpdate m k v).map Prod.fst ↔ a ∈ m.map Prod.fst ∨ a = k := by
  by_cases h : m.any (fun p => decide (p.1 = k)) = true
  · rw [keys_dictUpdate_of_any_true h]
    constructor
    · exact Or.inl
    · rintro (h1 | rfl)
      · exact h1
      · obtain ⟨p, hp, hpa⟩ := List.any_eq_true.mp h
        exact List.mem_map.mpr ⟨p, hp, of_decide_eq_true hpa⟩
  · rw [keys_dictUpdate_of_any_false h, List.mem_append, List.mem_singleton]

theorem keysNodup_dictUpdate {α : Type} {m : List (Str × α)} (k : Str) (v : α)
    (hnd : keysNodup m) : keysNodup (dictUpdate m k v) := by
  by_cases h : m.any (fun p => decide (p.1 = k)) = true
  · rw [keysNodup, keys_dictUpdate_of_any_true h]; exact hnd
  · rw [keysNodup, keys_dictUpdate_of_any_false h]
    have hk : k ∉ m.map Prod.fst := by
      intro hmem
      apply h
      obtain ⟨p, hp, hfst⟩ := List.mem_map.mp hmem
      exact List.any_eq_true.mpr ⟨p, hp, decide_eq_true hfst⟩
    rw [List.nodup_append]
    refine ⟨hnd, List.nodup_singleton _, ?_⟩
    intro b hb hb2
    rw [List.mem_singleton] at hb2
    exact hk (hb2 ▸ hb)

theorem pyLookup_map_update {α : Type} (m : List (Str × α)) (k : Str) (v : α)
    (hmem : k ∈ m.map Prod.fst) :
    pyLookup (m.map (fun p => if p.1 = k then (k, v) else p)) k = some v := by
  induction m with
  | nil => cases hmem
  | cons p rest ih =>
    by_cases hp : p.1 = k
    · simp [pyLookup, hp]
    · have hmem2 : k ∈ rest.map Prod.fst := by
        rw [List.map_cons, List.mem_cons] at hmem
        rcases hmem with h | h
        · exact absurd h.symm hp
        · exact h
      simp only [List.map_cons, if_neg hp, pyLookup, if_neg hp]
      exact ih hmem2

theorem pyLookup_map_update_ne {α : Type} (m : List (Str × α)) (k : Str)
    (v : α) (a : Str) (hne : a ≠ k) :
    pyLookup (m.map (fun p => if p.1 = k then (k, v) else p)) a =
      pyLookup m a := by
  induction m with
  | nil => rfl
  | cons p rest ih =>
    simp only [List.map_cons]
    by_cases hp : p.1 = k
    · have h1 : ¬ (k = a) := fun h => hne h.symm
      have h2 : ¬ (p.1 = a) := hp ▸ h1
      rw [if_pos hp]
      simp only [pyLookup]
      rw [if_neg h1, if_neg h2, ih]
    · rw [if_neg hp]
      simp only [pyLookup]
      by_cases hpa : p.1 = a
      · simp [hpa]
      · simp [hpa, ih]

theorem pyLookup_append_single_ne {α : Type} (m : List (Str × α)) (k : Str)
    (v : α) (a : Str) (hne : a ≠ k) :
    pyLookup (m ++ [(k, v)]) a = pyLookup m a := by
  induction m with
  | nil =>
    have h1 : ¬ (k = a) := fun h => hne h.symm
    simp [pyLookup, h1]
  | cons p rest ih =>
    by_cases hpa : p.1 = a <;> simp [pyLookup, hpa, ih]

theorem pyLookup_append_single_self {α : Type} (m : List (Str × α)) (k : Str)
    (v : α) (hmem : k ∉ m.map Prod.fst) :
    pyLookup (m ++ [(k, v)]) k = some v := by
  induction m with
  | nil => simp [pyLookup]
  | cons p rest ih =>
    have hp : ¬ p.1 = k := by
      intro h
      exact hmem (by rw [List.map_cons, List.mem_cons]; exact Or.inl h.symm)
    have hmem2 : k ∉ rest.map Prod.fst := by
      intro h
      exact hmem (by rw [List.map_cons, List.mem_cons]; exact Or.inr h)
    simp only [List.cons_append, pyLookup, if_neg hp]
    exact ih hmem2

theorem pyLookup_dictUpdate_self {α : Type} (m : List (Str × α)) (k : Str)
    (v : α) : pyLookup (dictUpdate m k v) k = some v := by
  rw [dictUpdate]
  split
  next h =>
    apply pyLookup_map_update
    obtain ⟨p, hp, hpk⟩ := List.any_eq_true.mp h
    exact List.mem_map.mpr ⟨p, hp, of_decide_eq_true hpk⟩
  next h =>
    apply pyLookup_append_single_self
    intro hk
    apply h
    obtain ⟨p, hp, hfst⟩ := List.mem_map.mp hk
    exact List.any_eq_true.mpr ⟨p, hp, decide_eq_true hfst⟩

theorem pyLookup_dictUpdate_ne {α : Type} (m : List (Str × α)) (k : Str)
    (v : α) (a : Str) (hne : a ≠ k) :
    pyLookup (dictUpdate m k v) a = pyLookup m a := by
  rw [dictUpdate]
  split
  · exact pyLookup_map_update_ne m k v a hne
  · exact pyLookup_append_single_ne m k v a hne

theorem pyLookup_map_snd {α β : Type} (f : α → β) (m : List (Str × α))
    (k : Str) :
    pyLookup (m.map (fun p => (p.1, f p.2))) k = (pyLookup m k).map f := by
  induction m with
  | nil => rfl
  | cons p rest ih =>
    by_cases hp : p.1 = k
    · simp [pyLookup, hp]
    · simp [pyLookup, hp, ih]

/-- The usage-map half of `add_variables`, as its own function. -/
def addUsageMap (m : List (Str × VarInfo)) (vs : List (Str × Str)) :
    List (Str × VarInfo) :=
  vs.foldl (fun acc p => dictUpdate acc p.1 ⟨p.2, false, []⟩) m

theorem add_variables_usage_map (t : VariableTracker) (vs : List (Str × Str)) :
    (t.add_variables vs).variable_usage_map =
      addUsageMap t.variable_usage_map vs := rfl

theorem addUsageMap_cons (m : List (Str × VarInfo)) (p : Str × Str)
    (vs : List (Str × Str)) :
    addUsageMap m (p :: vs) =
      addUsageMap (dictUpdate m p.1 ⟨p.2, false, []⟩) vs := rfl

theorem pyLookup_addUsageMap_not_mem (m : List (Str × VarInfo))
    (vs : List (Str × Str)) (k : Str) (h : k ∉ vs.map Prod.fst) :
    pyLookup (addUsageMap m vs) k = pyLookup m k := by
  induction vs generalizing m with
  | nil => rfl
  | cons p rest ih =>
    have h1 : k ≠ p.1 := by
      intro he
      exact h (by rw [List.map_cons, List.mem_cons]; exact Or.inl he)
    have h2 : k ∉ rest.map Prod.fst := by
      intro he
      exact h (by rw [List.map_cons, List.mem_cons]; exact Or.inr he)
    rw [addUsageMap_cons, ih _ h2, pyLookup_dictUpdate_ne _ _ _ _ h1]

theorem pyLookup_addUsageMap_of_mem (m : List (Str × VarInfo))
    (vs : List (Str × Str)) (k : Str) (val : Str)
    (hnd : (vs.map Prod.fst).Nodup) (hm : (k, val) ∈ vs) :
    pyLookup (addUsageMap m vs) k = some ⟨val, false, []⟩ := by
  induction vs generalizing m with
  | nil => cases hm
  | cons p rest ih =>
    rw [List.map_cons] at hnd
    have hnd2 := List.nodup_cons.mp hnd
    rw [addUsageMap_cons]
    rcases List.mem_cons.mp hm with h | h
    · have hk : k ∉ rest.map Prod.fst := by
        have := hnd2.1
        rw [← h] at this
        exact this
      rw [pyLookup_addUsageMap_not_mem _ _ _ hk, ← h]
      exact pyLookup_dictUpdate_self m k _
    · exact ih _ hnd2.2 h

theorem mem_keys_addUsageMap (m : List (Str × VarInfo))
    (vs : List (Str × Str)) (a : Str) :
    a ∈ (addUsageMap m vs).map Prod.fst ↔
      a ∈ m.map Prod.fst ∨ a ∈ vs.map Prod.fst := by
  induction vs generalizing m with
  | nil =>
    exact ⟨Or.inl, fun h => h.elim id (fun hx => absurd hx (List.not_mem_nil a))⟩
  | cons p rest ih =>
    rw [addUsageMap_cons, ih, mem_keys_dictUpdate, List.map_cons,
      List.mem_cons]
    tauto

theorem keysNodup_addUsageMap (m : List (Str × VarInfo))
    (vs : List (Str × Str)) (hnd : keysNodup m) :
    keysNodup (addUsageMap m vs) := by
  induction vs generalizing m with
  | nil => exact hnd
  | cons p rest ih =>
    rw [addUsageMap_cons]
    exact ih _ (keysNodup_dictUpdate _ _ hnd)

theorem addUsageMap_disjoint (vs : List (Str × Str)) :
    ∀ m : List (Str × VarInfo),
      (∀ a ∈ vs.map Prod.fst, a ∉ m.map Prod.fst) →
      (vs.map Prod.fst).Nodup →
      addUsageMap m vs = m ++ vs.map (fun p => (p.1, ⟨p.2, false, []⟩)) := by
  induction vs with
  | nil => intro m _ _; simp [addUsageMap]
  | cons p rest ih =>
    intro m hdisj hnd
    rw [List.map_cons] at hnd
    have hnd2 := List.nodup_cons.mp hnd
    have hpm : ¬ m.any (fun q => decide (q.1 = p.1)) = true := by
      intro h
      obtain ⟨q, hq, hqk⟩ := List.any_eq_true.mp h
      exact hdisj p.1 (by rw [List.map_cons]; exact List.mem_cons_self _ _)
        (List.mem_map.mpr ⟨q, hq, of_decide_eq_true hqk⟩)
    have hdisj2 : ∀ a ∈ rest.map Prod.fst,
        a ∉ (m ++ [(p.1, (⟨p.2, false, []⟩ : VarInfo))]).map Prod.fst := by
      intro a ha hmem
      rw [List.map_append, List.mem_append] at hmem
      rcases hmem with h | h
      · exact hdisj a (by rw [List.map_cons]; exact List.mem_cons_of_mem _ ha) h
      · rw [List.map_singleton, List.mem_singleton] at h
        subst h
        exact hnd2.1 ha
    rw [addUsageMap_cons,
      show dictUpdate m p.1 (⟨p.2, false, []⟩ : VarInfo) =
        m ++ [(p.1, ⟨p.2, false, []⟩)] from by rw [dictUpdate, if_neg hpm],
      ih _ hdisj2 hnd2.2]
    rw [List.map_cons, List.append_assoc, List.singleton_append]

theorem addUsageMap_nil_fresh (vs : List (Str × Str))
    (hnd : (vs.map Prod.fst).Nodup) :
    addUsageMap [] vs = vs.map (fun p => (p.1, ⟨p.2, false, []⟩)) := by
  rw [addUsageMap_disjoint vs [] (by intro a _ h; cases h) hnd]
  rfl

/-! ### Characterisation of `check_usage_in_code` -/

theorem checkUsageList_used_eq (code : Str) (m : List (Str × VarInfo)) :
    (checkUsageList code m).1 =
      (m.filter (fun p => hasSubstr code p.2.value)).map Prod.fst := by
  induction m with
  | nil => rfl
  | cons p rest ih =>
    by_cases h : hasSubstr code p.2.value = true
    · simp [checkUsageList, h, ih, List.filter_cons]
    · simp [checkUsageList, h, ih, List.filter_cons]

theorem checkUsageList_unused_eq (code : Str) (m : List (Str × VarInfo)) :
    (checkUsageList code m).2.1 =
      (m.filter (fun p => !hasSubstr code p.2.value)).map Prod.fst := by
  induction m with
  | nil => rfl
  | cons p rest ih =>
    by_cases h : hasSubstr code p.2.value = true
    · simp [checkUsageList, h, ih, List.filter_cons]
    · simp [checkUsageList, h, ih, List.filter_cons]

theorem checkUsageList_map_eq (code : Str) (m : List (Str × VarInfo)) :
    (checkUsageList code m).2.2 = m.map (fun p => (p.1, updInfo code p.2)) := by
  induction m with
  | nil => rfl
  | cons p rest ih =>
    by_cases h : hasSubstr code p.2.value = true
    · simp [checkUsageList, updInfo, h, ih]
    · simp [checkUsageList, updInfo, h, ih]

theorem checkUsageList_length (code : Str) (m : List (Str × VarInfo)) :
    (checkUsageList code m).1.length + (checkUsageList code m).2.1.length =
      m.length := by
  rw [checkUsageList_used_eq, checkUsageList_unused_eq, List.length_map,
    List.length_map]
  exact (List.length_eq_length_filter_add
    (fun q : Str × VarInfo => hasSubstr code q.2.value)).symm

theorem mem_checkUsed_iff (code : Str) (m : List (Str × VarInfo)) (k : Str) :
    k ∈ (checkUsageList code m).1 ↔
      ∃ info, (k, info) ∈ m ∧ hasSubstr code info.value = true := by
  rw [checkUsageList_used_eq]
  constructor
  · intro h
    obtain ⟨p, hp, rfl⟩ := List.mem_map.mp h
    obtain ⟨hm, hs⟩ := List.mem_filter.mp hp
    exact ⟨p.2, hm, hs⟩
  · rintro ⟨info, hm, hs⟩
    exact List.mem_map.mpr ⟨(k, info), List.mem_filter.mpr ⟨hm, hs⟩, rfl⟩

theorem mem_checkUnused_iff (code : Str) (m : List (Str × VarInfo)) (k : Str) :
    k ∈ (checkUsageList code m).2.1 ↔
      ∃ info, (k, info) ∈ m ∧ hasSubstr code info.value = false := by
  rw [checkUsageList_unused_eq]
  constructor
  · intro h
    obtain ⟨p, hp, rfl⟩ := List.mem_map.mp h
    obtain ⟨hm, hs⟩ := List.mem_filter.mp hp
    exact ⟨p.2, hm, by simpa using hs⟩
  · rintro ⟨info, hm, hs⟩
    exact List.mem_map.mpr ⟨(k, info), List.mem_filter.mpr ⟨hm, by simpa using hs⟩, rfl⟩

theorem keys_checkUsageList (code : Str) (m : List (Str × VarInfo)) :
    (checkUsageList code m).2.2.map Prod.fst = m.map Prod.fst := by
  rw [checkUsageList_map_eq, List.map_map]
  rfl

theorem keysNodup_checkUsageList (code : Str) (m : List (Str × VarInfo))
    (hnd : keysNodup m) : keysNodup (checkUsageList code m).2.2 := by
  rw [keysNodup, keys_checkUsageList]
  exact hnd

theorem pyLookup_checkUsageList (code : Str) (m : List (Str × VarInfo))
    (k : Str) :
    pyLookup (checkUsageList code m).2.2 k = (pyLookup m k).map (updInfo code) := by
  rw [checkUsageList_map_eq]
  induction m with
  | nil => rfl
  | cons p rest ih =>
    by_cases hp : p.1 = k
    · simp [pyLookup, hp]
    · simp [pyLookup, hp, ih]

theorem check_usage_map_eq (t : VariableTracker) (code : Str) :
    ((t.check_usage_in_code code).2).variable_usage_map =
      (checkUsageList code t.variable_usage_map).2.2 := rfl

theorem updInfo_value (code : Str) (info : VarInfo) :
    (updInfo code info).value = info.value := by
  rw [updInfo]; split <;> rfl

/-- The `(used, unused)` result of a second check over an already-checked map
is the same as over the original map (the per-entry value is unchanged). -/
theorem checkUsageList_updInvariant (code : Str) (m : List (Str × VarInfo)) :
    (checkUsageList code (m.map (fun p => (p.1, updInfo code p.2)))).1 =
      (checkUsageList code m).1 ∧
    (checkUsageList code (m.map (fun p => (p.1, updInfo code p.2)))).2.1 =
      (checkUsageList code m).2.1 := by
  induction m with
  | nil => exact ⟨rfl, rfl⟩
  | cons p rest ih =>
    have hv : (updInfo code p.2).value = p.2.value := updInfo_value code p.2
    by_cases h : hasSubstr code p.2.value = true
    · simp [checkUsageList, hv, h, ih.1, ih.2]
    · simp [checkUsageList, hv, h, ih.1, ih.2]

/-- C1: on a freshly created `VariableTracker` loaded with a variable map `V`
(`N` entries, distinct keys), `check_usage_in_code C` reports a key `k` as
used iff the string form of its value is a literal substring of `C`
(and unused iff it is not), reports exactly `M` used keys where `M` is the
number of entries whose value occurs in `C` (hence `N - M` unused), and for
each used key records exactly the 1-indexed numbers of the lines of `C`
containing the value. -/
theorem check_usage_in_code_partitions_and_locations
    (V : List (Str × Str)) (C : Str) (hnd : (V.map Prod.fst).Nodup) :
    (∀ k val, (k, val) ∈ V →
      (k ∈ ((VariableTracker.new.add_variables V).check_usage_in_code C).1.1 ↔
        val <:+: C)) ∧
    (∀ k val, (k, val) ∈ V →
      (k ∈ ((VariableTracker.new.add_variables V).check_usage_in_code C).1.2 ↔
        ¬ val <:+: C)) ∧
    ((VariableTracker.new.add_variables V).check_usage_in_code C).1.1.length =
      (V.filter (fun p => hasSubstr C p.2)).length ∧
    ((VariableTracker.new.add_variables V).check_usage_in_code C).1.1.length +
      ((VariableTracker.new.add_variables V).check_usage_in_code C).1.2.length
      = V.length ∧
    (∀ k val, (k, val) ∈ V → val <:+: C →
      pyLookup
        ((VariableTracker.new.add_variables V).check_usage_in_code
          C).2.variable_usage_map k = some ⟨val, true, matchingLines C val⟩) ∧
    (∀ k val, (k, val) ∈ V → ¬ val <:+: C →
      pyLookup
        ((VariableTracker.new.add_variables V).check_usage_in_code
          C).2.variable_usage_map k = some ⟨val, false, []⟩) ∧
    (∀ n val, n ∈ matchingLines C val ↔
      ∃ i, i < (pyLines C).length ∧ n = i + 1 ∧
        val <:+: (pyLines C).getD i []) := by
  have hmap : (VariableTracker.new.add_variables V).variable_usage_map =
      V.map (fun p => (p.1, ⟨p.2, false, []⟩)) := by
    rw [add_variables_usage_map]
    exact addUsageMap_nil_fresh V hnd
  have hndm : keysNodup
      (V.map (fun p => (p.1, (⟨p.2, false, []⟩ : VarInfo)))) := by
    rw [keysNodup, List.map_map]
    exact hnd
  have hused : ((VariableTracker.new.add_variables V).check_usage_in_code
      C).1.1 =
      (checkUsageList C (V.map (fun p => (p.1, ⟨p.2, false, []⟩)))).1 := by
    simp only [VariableTracker.check_usage_in_code, hmap]
  have hunused : ((VariableTracker.new.add_variables V).check_usage_in_code
      C).1.2 =
      (checkUsageList C (V.map (fun p => (p.1, ⟨p.2, false, []⟩)))).2.1 := by
    simp only [VariableTracker.check_usage_in_code, hmap]
  have hmout : ((VariableTracker.new.add_variables V).check_usage_in_code
      C).2.variable_usage_map =
      (checkUsageList C (V.map (fun p => (p.1, ⟨p.2, false, []⟩)))).2.2 := by
    simp only [VariableTracker.check_usage_in_code, hmap]
  have hfresh : ∀ k val, (k, val) ∈ V →
      (k, (⟨val, false, []⟩ : VarInfo)) ∈
        V.map (fun p => (p.1, ⟨p.2, false, []⟩)) := by
    intro k val hm
    exact List.mem_map.mpr ⟨(k, val), hm, rfl⟩
  have hlook : ∀ k val, (k, val) ∈ V →
      pyLookup (V.map (fun p => (p.1, (⟨p.2, false, []⟩ : VarInfo)))) k =
        some ⟨val, false, []⟩ := by
    intro k val hm
    rw [pyLookup_map_snd (fun v => (⟨v, false, []⟩ : VarInfo)) V k,
      pyLookup_eq_some_of_mem hnd hm]
    rfl
  refine ⟨?_, ?_, ?_, ?_, ?_, ?_, ?_⟩
  · intro k val hm
    rw [hused, mem_checkUsed_iff]
    constructor
    · rintro ⟨info, hmem, hs⟩
      have he : info = ⟨val, false, []⟩ :=
        mem_eq_of_keysNodup hndm hmem (hfresh k val hm)
      rw [he] at hs
      exact (hasSubstr_iff C val).mp hs
    · intro h
      exact ⟨⟨val, false, []⟩, hfresh k val hm, (hasSubstr_iff C val).mpr h⟩
  · intro k val hm
    rw [hunused, mem_checkUnused_iff]
    constructor
    · rintro ⟨info, hmem, hs⟩
      have he : info = ⟨val, false, []⟩ :=
        mem_eq_of_keysNodup hndm hmem (hfresh k val hm)
      rw [he] at hs
      intro hc
      rw [(hasSubstr_iff C val).mpr hc] at hs
      cases hs
    · intro h
      refine ⟨⟨val, false, []⟩, hfresh k val hm, ?_⟩
      cases hb : hasSubstr C val
      · rfl
      · exact absurd ((hasSubstr_iff C val).mp hb) h
  · rw [hused, checkUsageList_used_eq, List.length_map, List.filter_map,
      List.length_map]
    rfl
  · rw [hused, hunused, checkUsageList_length, List.length_map]
  · intro k val hm hc
    rw [hmout, pyLookup_checkUsageList, hlook k val hm]
    have hb : hasSubstr C val = true := (hasSubstr_iff C val).mpr hc
    simp only [Option.map_some', updInfo, hb, if_true]
    rw [List.nil_append]
  · intro k val hm hc
    rw [hmout, pyLookup_checkUsageList, hlook k val hm]
    have hb : hasSubstr C val = false := by
      cases hs : hasSubstr C val
      · rfl
      · exact absurd ((hasSubstr_iff C val).mp hs) hc
    simp only [Option.map_some', updInfo, hb]
    rfl
  · intro n val
    exact mem_matchingLines C val n

/-- Concrete variable map for the C1 witness (spec scenario values). -/
def c1V : List (Str × Str) :=
  [("bucket_name".data, "data-prod-2024".data), ("acl".data, "public-read".data)]

/-- Concrete code string for the C1 witness: contains `data-prod-2024`
verbatim but not `public-read`. -/
def c1C : Str :=
  "bucket = \"data-prod-2024\"\nacl    = \"private\"".data

/-- Witness for C1: at the concrete map `c1V` and code `c1C`, the key whose
value occurs in the code is reported used and the other unused. -/
theorem check_usage_in_code_partitions_and_locations_witness :
    "bucket_name".data ∈
      ((VariableTracker.new.add_variables c1V).check_usage_in_code c1C).1.1 ∧
    "acl".data ∈
      ((VariableTracker.new.add_variables c1V).check_usage_in_code c1C).1.2 ∧
    pyLookup ((VariableTracker.new.add_variables c1V).check_usage_in_code
        c1C).2.variable_usage_map "bucket_name".data =
      some ⟨"data-prod-2024".data, true, [1]⟩ := by
  have h := check_usage_in_code_partitions_and_locations c1V c1C (by decide)
  refine ⟨?_, ?_, ?_⟩
  · exact (h.1 "bucket_name".data "data-prod-2024".data (by decide)).mpr
      (by decide)
  · exact (h.2.1 "acl".data "public-read".data (by decide)).mpr (by decide)
  · have := h.2.2.2.2.1 "bucket_name".data "data-prod-2024".data (by decide)
      (by decide)
    rw [this]
    decide

/-- C10: `check_usage_in_code` never clears recorded locations: each checked
entry is rewritten by `updInfo`, which appends the matching line numbers when
the value occurs and leaves `locations` untouched otherwise (only
`add_variables` resets an entry); consequently, on a fresh tracker, two
consecutive checks with the same code return the same `(used, unused)` pair
while each used key ends with its matching line numbers recorded twice. -/
theorem check_usage_in_code_appends_locations
    (V : List (Str × Str)) (C : Str) (hnd : (V.map Prod.fst).Nodup) :
    (∀ (t : VariableTracker) (k : Str),
      pyLookup ((t.check_usage_in_code C).2).variable_usage_map k =
        (pyLookup t.variable_usage_map k).map (updInfo C)) ∧
    (∀ info : VarInfo, (updInfo C info).locations =
      info.locations ++
        (if hasSubstr C info.value = true then matchingLines C info.value
         else [])) ∧
    ((((VariableTracker.new.add_variables V).check_usage_in_code
        C).2).check_usage_in_code C).1 =
      ((VariableTracker.new.add_variables V).check_usage_in_code C).1 ∧
    (∀ k val, (k, val) ∈ V → val <:+: C →
      pyLookup (((((VariableTracker.new.add_variables V).check_usage_in_code
          C).2).check_usage_in_code C).2).variable_usage_map k =
        some ⟨val, true, matchingLines C val ++ matchingLines C val⟩) := by
  have hmap : (VariableTracker.new.add_variables V).variable_usage_map =
      V.map (fun p => (p.1, ⟨p.2, false, []⟩)) := by
    rw [add_variables_usage_map]
    exact addUsageMap_nil_fresh V hnd
  have hlook : ∀ k val, (k, val) ∈ V →
      pyLookup (V.map (fun p => (p.1, (⟨p.2, false, []⟩ : VarInfo)))) k =
        some ⟨val, false, []⟩ := by
    intro k val hm
    rw [pyLookup_map_snd (fun v => (⟨v, false, []⟩ : VarInfo)) V k,
      pyLookup_eq_some_of_mem hnd hm]
    rfl
  refine ⟨?_, ?_, ?_, ?_⟩
  · intro t k
    exact pyLookup_checkUsageList C t.variable_usage_map k
  · intro info
    by_cases h : hasSubstr C info.value = true
    · simp [updInfo, h]
    · simp [updInfo, h]
  · have hm1 : (((VariableTracker.new.add_variables V).check_usage_in_code
        C).2).variable_usage_map =
        ((VariableTracker.new.add_variables
          V).variable_usage_map).map (fun p => (p.1, updInfo C p.2)) :=
      checkUsageList_map_eq C _
    show ((checkUsageList C (((VariableTracker.new.add_variables
        V).check_usage_in_code C).2).variable_usage_map).1,
        (checkUsageList C _).2.1) = _
    rw [hm1]
    have h2 := checkUsageList_updInvariant C
      ((VariableTracker.new.add_variables V).variable_usage_map)
    rw [h2.1, h2.2]
    rfl
  · intro k val hm hc
    have hb : hasSubstr C val = true := (hasSubstr_iff C val).mpr hc
    have e1 : pyLookup (((VariableTracker.new.add_variables
        V).check_usage_in_code C).2).variable_usage_map k =
        some (updInfo C ⟨val, false, []⟩) := by
      rw [check_usage_map_eq, hmap, pyLookup_checkUsageList C _ k,
        hlook k val hm]
      rfl
    rw [check_usage_map_eq, pyLookup_checkUsageList C _ k, e1]
    simp only [Option.map_some', updInfo, hb, if_true, List.nil_append]

/-- Witness for C10: two consecutive checks at concrete inputs return the
same partition, and the used key's matching line number is recorded twice. -/
theorem check_usage_in_code_appends_locations_witness :
    ((((VariableTracker.new.add_variables c1V).check_usage_in_code
        c1C).2).check_usage_in_code c1C).1 =
      ((VariableTracker.new.add_variables c1V).check_usage_in_code c1C).1 ∧
    pyLookup (((((VariableTracker.new.add_variables c1V).check_usage_in_code
        c1C).2).check_usage_in_code c1C).2).variable_usage_map
        "bucket_name".data =
      some ⟨"data-prod-2024".data, true, [1, 1]⟩ := by
  have h := check_usage_in_code_appends_locations c1V c1C (by decide)
  refine ⟨h.2.2.1, ?_⟩
  have h4 := h.2.2.2 "bucket_name".data "data-prod-2024".data (by decide)
    (by decide)
  rw [h4]
  decide

/-! ### IntelligentReranker (`rag_pipeline.py`) -/

/-- `SearchStrategy` enum. -/
inductive SearchStrategy where
  | semantic
  | structural
  | code
deriving DecidableEq

/-- `RetrievalResult` dataclass; `score` is a Python float modelled as `ℚ`. -/
structure RetrievalResult where
  content : Str
  score : ℚ
  metadata : List (Str × Str)
  strategy : SearchStrategy
deriving DecidableEq

/-- The blending loop of `relevance_scoring`:
`for i, result in enumerate(results): if i < len(scores):
result.score = (result.score + scores[i]) / 2`. -/
def blendScoresAux (scores : List ℚ) : Nat → List RetrievalResult →
    List RetrievalResult
  | _, [] => []
  | i, r :: rest =>
    (if i < scores.length then
      { r with score := (r.score + scores.getD i 0) / 2 }
     else r) :: blendScoresAux scores (i + 1) rest

/-- Score blending with the LLM-judged scores; `none` models the silent
`except: pass` paths (no JSON found / `json.loads` failure), which leave
every score unchanged. -/
def blendScores (judged : Option (List ℚ)) (results : List RetrievalResult) :
    List RetrievalResult :=
  match judged with
  | some scores => blendScoresAux scores 0 results
  | none => results

/-- Stable insertion for descending sort: the new element goes before the
first strictly smaller element, after any earlier element with an equal or
larger score (Python `sorted(key=..., reverse=True)` is stable). -/
def insertDesc (a : RetrievalResult) : List RetrievalResult →
    List RetrievalResult
  | [] => [a]
  | x :: xs => if x.score ≤ a.score then a :: x :: xs else x :: insertDesc a xs

/-- Stable descending sort by `score`
(`sorted(results, key=lambda x: x.score, reverse=True)`). -/
def sortByScoreDesc (l : List RetrievalResult) : List RetrievalResult :=
  l.foldr insertDesc []

/-- `IntelligentReranker.relevance_scoring`: blend scores with the judged
relevance scores (skipped on parse failure), then sort descending. -/
def relevance_scoring (judged : Option (List ℚ))
    (results : List RetrievalResult) : List RetrievalResult :=
  sortByScoreDesc (blendScores judged results)

/-- The `security_score` computed by
`IntelligentReranker.security_validation` for one content string. -/
def securityFactor (content : Str) : ℚ :=
  let content_lower := toLowerStr content
  let s1 : ℚ := 1
  let s2 := if hasSubstr content_lower "hardcoded".data ||
      hasSubstr content_lower "password".data then s1 - 3/10 else s1
  let s3 := if hasSubstr content_lower "public".data &&
      hasSubstr content_lower "bucket".data then s2 - 2/10 else s2
  let s4 := if hasSubstr content_lower "encryption".data ||
      hasSubstr content_lower "kms".data then s3 + 1/10 else s3
  if hasSubstr content_lower "iam".data ||
      hasSubstr content_lower "policy".data then s4 + 1/10 else s4

/-- One result's rescoring in `security_validation`:
`result.score = result.score * security_score`. -/
def securityAdjust (r : RetrievalResult) : RetrievalResult :=
  { r with score := r.score * securityFactor r.content }

/-- `IntelligentReranker.security_validation`. -/
def security_validation (results : List RetrievalResult) :
    List RetrievalResult :=
  results.map securityAdjust

/-- `IntelligentReranker.select_best_context`: truncate to `max_context`. -/
def select_best_context (results : List RetrievalResult)
    (max_context : Nat := 5) : List RetrievalResult :=
  results.take max_context

/-- `IntelligentReranker.rerank_and_validate`: relevance scoring, then
security adjustment, then truncation to 5. -/
def rerank_and_validate (judged : Option (List ℚ))
    (results : List RetrievalResult) : List RetrievalResult :=
  select_best_context (security_validation (relevance_scoring judged results)) 5

/-- Spec-side decomposition of the keyword adjustments (C9): penalty for
`hardcoded`/`password`. -/
def adjHardcoded (lc : Str) : ℚ :=
  if hasSubstr lc "hardcoded".data || hasSubstr lc "password".data
  then -(3/10) else 0

/-- Spec-side decomposition (C9): penalty for `public` + `bucket`. -/
def adjPublicBucket (lc : Str) : ℚ :=
  if hasSubstr lc "public".data && hasSubstr lc "bucket".data
  then -(2/10) else 0

/-- Spec-side decomposition (C9): bonus for `encryption`/`kms`. -/
def adjEncryption (lc : Str) : ℚ :=
  if hasSubstr lc "encryption".data || hasSubstr lc "kms".data
  then 1/10 else 0

/-- Spec-side decomposition (C9): bonus for `iam`/`policy`. -/
def adjIam (lc : Str) : ℚ :=
  if hasSubstr lc "iam".data || hasSubstr lc "policy".data
  then 1/10 else 0

theorem securityFactor_eq_one_add_sum (content : Str) :
    securityFactor content =
      1 + adjHardcoded (toLowerStr content) +
        adjPublicBucket (toLowerStr content) +
        adjEncryption (toLowerStr content) + adjIam (toLowerStr content) := by
  simp only [securityFactor, adjHardcoded, adjPublicBucket, adjEncryption,
    adjIam]
  split_ifs <;> ring

theorem securityFactor_bounds (content : Str) :
    1/2 ≤ securityFactor content ∧ securityFactor content ≤ 6/5 := by
  simp only [securityFactor]
  split_ifs <;> norm_num


theorem insertDesc_perm (a : RetrievalResult) (l : List RetrievalResult) :
    List.Perm (insertDesc a l) (a :: l) := by
  induction l with
  | nil => exact List.Perm.refl _
  | cons x xs ih =>
    rw [insertDesc]
    split
    · exact List.Perm.refl _
    · exact (List.Perm.cons x ih).trans (List.Perm.swap a x xs)

theorem sortByScoreDesc_perm (l : List RetrievalResult) :
    List.Perm (sortByScoreDesc l) l := by
  induction l with
  | nil => exact List.Perm.refl _
  | cons a t ih =>
    exact (insertDesc_perm a (sortByScoreDesc t)).trans (List.Perm.cons a ih)

theorem length_sortByScoreDesc (l : List RetrievalResult) :
    (sortByScoreDesc l).length = l.length :=
  (sortByScoreDesc_perm l).length_eq

theorem insertDesc_pairwise (a : RetrievalResult) (l : List RetrievalResult)
    (h : l.Pairwise (fun p q => q.score ≤ p.score)) :
    (insertDesc a l).Pairwise (fun p q => q.score ≤ p.score) := by
  induction l with
  | nil => exact List.pairwise_singleton _ _
  | cons x xs ih =>
    rcases List.pairwise_cons.mp h with ⟨hx, hxs⟩
    rw [insertDesc]
    split
    next hle =>
      refine List.pairwise_cons.mpr ⟨?_, h⟩
      intro b hb
      rcases List.mem_cons.mp hb with rfl | hb2
      · exact hle
      · exact le_trans (hx b hb2) hle
    next hgt =>
      refine List.pairwise_cons.mpr ⟨?_, ih hxs⟩
      intro b hb
      have hb3 := (insertDesc_perm a xs).mem_iff.mp hb
      rcases List.mem_cons.mp hb3 with rfl | hb4
      · exact (not_le.mp hgt).le
      · exact hx b hb4

theorem sortByScoreDesc_pairwise (l : List RetrievalResult) :
    (sortByScoreDesc l).Pairwise (fun p q => q.score ≤ p.score) := by
  induction l with
  | nil => exact List.Pairwise.nil
  | cons a t ih => exact insertDesc_pairwise a _ ih

theorem length_blendScoresAux (scores : List ℚ) :
    ∀ (i : Nat) (l : List RetrievalResult),
      (blendScoresAux scores i l).length = l.length := by
  intro i l
  induction l generalizing i with
  | nil => rfl
  | cons r rest ih => simp [blendScoresAux, ih]

theorem length_blendScores (judged : Option (List ℚ))
    (l : List RetrievalResult) : (blendScores judged l).length = l.length := by
  cases judged with
  | none => rfl
  | some scores => exact length_blendScoresAux scores 0 l

/-- C3 (amended): `rerank_and_validate` returns exactly `min 5 n` results;
the returned sequence is the first 5 of the candidates sorted descending by
the relevance-blended score, with the security adjustment applied afterwards
in place — that intermediate sorted list is a descending-ordered permutation
of the blended candidates, but the trailing security adjustment can break
the descending order of the final scores (see the counterexample). -/
theorem rerank_and_validate_spec (judged : Option (List ℚ))
    (results : List RetrievalResult) :
    (rerank_and_validate judged results).length = min 5 results.length ∧
    rerank_and_validate judged results =
      ((sortByScoreDesc (blendScores judged results)).take 5).map
        securityAdjust ∧
    (sortByScoreDesc (blendScores judged results)).Pairwise
      (fun p q => q.score ≤ p.score) ∧
    List.Perm (sortByScoreDesc (blendScores judged results))
      (blendScores judged results) := by
  refine ⟨?_, ?_, sortByScoreDesc_pairwise _, sortByScoreDesc_perm _⟩
  · rw [rerank_and_validate, select_best_context, security_validation,
      relevance_scoring, List.length_take, List.length_map,
      length_sortByScoreDesc, length_blendScores]
  · rw [rerank_and_validate, select_best_context, security_validation,
      relevance_scoring, List.map_take]

/-- Concrete input for the C3 counterexample: highest blended score but a
`password` penalty. -/
def c3rA : RetrievalResult := ⟨"password".data, 1, [], .semantic⟩

/-- Concrete input for the C3 counterexample: lower blended score, no
keyword adjustment. -/
def c3rB : RetrievalResult := ⟨[], 4/5, [], .semantic⟩

/-- Counterexample to C3 as stated: the two returned items carry final
scores 0.7 then 0.8 — a lower-final-score item before a higher one, so the
output is not ordered descending by final (post-adjustment) score. -/
theorem rerank_and_validate_order_cex :
    (rerank_and_validate none [c3rA, c3rB]).map (fun r => r.score) =
      [7/10, 4/5] ∧
    ¬ (rerank_and_validate none [c3rA, c3rB]).Pairwise
        (fun p q => q.score ≤ p.score) := by
  have hfA : securityFactor "password".data = 7/10 := by
    have d1 : (hasSubstr (toLowerStr "password".data) "hardcoded".data ||
        hasSubstr (toLowerStr "password".data) "password".data) = true := by
      decide
    have d2 : (hasSubstr (toLowerStr "password".data) "public".data &&
        hasSubstr (toLowerStr "password".data) "bucket".data) = false := by
      decide
    have d3 : (hasSubstr (toLowerStr "password".data) "encryption".data ||
        hasSubstr (toLowerStr "password".data) "kms".data) = false := by
      decide
    have d4 : (hasSubstr (toLowerStr "password".data) "iam".data ||
        hasSubstr (toLowerStr "password".data) "policy".data) = false := by
      decide
    simp only [securityFactor, d1, d2, d3, d4, if_true, if_false]
    norm_num
  have hfB : securityFactor [] = 1 := by
    simp only [securityFactor]
    norm_num [toLowerStr, hasSubstr, isPrefixB]
  have hsort : sortByScoreDesc [c3rA, c3rB] = [c3rA, c3rB] := by
    show insertDesc c3rA (insertDesc c3rB []) = _
    rw [show insertDesc c3rB [] = [c3rB] from rfl, insertDesc,
      if_pos (by norm_num [c3rA, c3rB])]
  have hrr : rerank_and_validate none [c3rA, c3rB] =
      [securityAdjust c3rA, securityAdjust c3rB] := by
    rw [rerank_and_validate, relevance_scoring,
      show blendScores none [c3rA, c3rB] = [c3rA, c3rB] from rfl, hsort]
    rfl
  constructor
  · rw [hrr]
    simp only [List.map_cons, List.map_nil, securityAdjust]
    rw [show c3rA.content = "password".data from rfl,
      show c3rB.content = ([] : Str) from rfl, hfA, hfB]
    norm_num [c3rA, c3rB]
  · intro hp
    rw [hrr] at hp
    have h2 := (List.pairwise_cons.mp hp).1 _ (List.mem_cons_self _ _)
    simp only [securityAdjust] at h2
    rw [show c3rA.content = "password".data from rfl,
      show c3rB.content = ([] : Str) from rfl, hfA, hfB] at h2
    norm_num [c3rA, c3rB] at h2

/-- C9 (amended): `security_validation` multiplies each result's score by
`1 + sum of the four keyword adjustments` (−0.3 for `hardcoded`/`password`,
−0.2 for `public`+`bucket`, +0.1 for `encryption`/`kms`, +0.1 for
`iam`/`policy`), but the factor can never go negative: only 0.5 of penalties
exist in total, so the factor always lies in `[0.5, 1.2]`. -/
theorem security_validation_factor_spec :
    (∀ r : RetrievalResult, (securityAdjust r).score =
      r.score * (1 + adjHardcoded (toLowerStr r.content) +
        adjPublicBucket (toLowerStr r.content) +
        adjEncryption (toLowerStr r.content) +
        adjIam (toLowerStr r.content))) ∧
    (∀ results : List RetrievalResult,
      security_validation results = results.map securityAdjust) ∧
    (∀ content : Str,
      1/2 ≤ securityFactor content ∧ securityFactor content ≤ 6/5) := by
  refine ⟨?_, fun _ => rfl, securityFactor_bounds⟩
  intro r
  show r.score * securityFactor r.content = _
  rw [securityFactor_eq_one_add_sum]

/-- Counterexample to C9's "for some content the factor goes negative":
no content string can make the security factor negative — the two penalties
total at most 0.5, leaving the factor at least 0.5. -/
theorem securityFactor_never_negative :
    ¬ ∃ content : Str, securityFactor content < 0 := by
  rintro ⟨content, h⟩
  have hb := (securityFactor_bounds content).1
  linarith

/-! ### MultiAgentGeneration.validator_agent (`rag_pipeline.py`) -/

/-- `ValidationResult` dataclass of `rag_pipeline.py`. -/
structure ValidationResult where
  is_valid : Bool
  issues : List Str
  suggestions : List Str
  score : ℚ
deriving DecidableEq

/-- Fields extracted (each with `.get` default) from the validator LLM
JSON response; `none` at the outer `Option` models the no-JSON / exception
fallback path. -/
structure ValidatorLLMResp where
  is_valid : Option Bool
  issues : Option (List Str)
  suggestions : Option (List Str)
  score : Option ℚ

/-- Apostrophe character (kept out of string literals). -/
def pyApos : Char := Char.ofNat 39

/-- The issue text
`"CRITICAL: User value ... is NOT present in code"` (an f-string in the
source, with the variable name and its value interpolated)
built by `validator_agent` for each unused variable. -/
def criticalIssueMsg (var value : Str) : Str :=
  "CRITICAL: User value ".data ++ [pyApos] ++ var ++ " = ".data ++ value ++
    [pyApos] ++ " is NOT present in code".data

/-- The issue-building loop of `validator_agent`
(`for var in unused_vars: issues.append(f"... = {variables[var]} ...")`):
the dict subscript `variables[var]` raises `KeyError` when an unused
tracker key is absent from the passed map, so the loop is fallible —
`.error k` is the `KeyError` raised at the first missing key `k`. -/
def buildCriticalIssues (vs : List (Str × Str)) : List Str →
    Except Str (List Str)
  | [] => .ok []
  | v :: rest =>
    match pyLookup vs v with
    | none => .error v
    | some val =>
      (buildCriticalIssues vs rest).map
        (fun issues => criticalIssueMsg v val :: issues)

/-- `MultiAgentGeneration.validator_agent`: runs the tracker check on the
code, builds a critical issue per unused variable (subscripting the passed
map — a `KeyError`, modelled as `.error`, when an unused tracker key is
absent from it), and overrides the LLM verdict — `is_valid` is and-ed with
`len(unused_vars) == 0` and the score forced to 0.3 whenever any variable
is unused (both in the parsed path and in the parse-failure fallback).
On the non-raising path returns the result and the mutated tracker. -/
def validator_agent (tracker : VariableTracker) (terraform_code : Str)
    (vs : List (Str × Str)) (llm : Option ValidatorLLMResp) :
    Except Str (ValidationResult × VariableTracker) :=
  let chk := tracker.check_usage_in_code terraform_code
  let unused_vars := chk.1.2
  match buildCriticalIssues vs unused_vars with
  | .error k => .error k
  | .ok issues =>
    match llm with
    | some rd =>
      .ok (⟨(rd.is_valid.getD true) && (unused_vars.length == 0),
        issues ++ rd.issues.getD [],
        rd.suggestions.getD [],
        if unused_vars.isEmpty then rd.score.getD (8/10) else 3/10⟩, chk.2)
    | none =>
      .ok (⟨unused_vars.length == 0, issues, [],
        if unused_vars.isEmpty then (8/10 : ℚ) else 3/10⟩, chk.2)

theorem buildCriticalIssues_isSome (vs : List (Str × Str)) :
    ∀ l : List Str, (∀ k ∈ l, (pyLookup vs k).isSome = true) →
      ∃ issues, buildCriticalIssues vs l = .ok issues := by
  intro l
  induction l with
  | nil => intro _; exact ⟨[], rfl⟩
  | cons v rest ih =>
    intro h
    have hv := h v (List.mem_cons_self _ _)
    cases hl : pyLookup vs v with
    | none => rw [hl] at hv; cases hv
    | some val =>
      obtain ⟨issues, his⟩ :=
        ih (fun k hk => h k (List.mem_cons_of_mem _ hk))
      exact ⟨criticalIssueMsg v val :: issues,
        by simp [buildCriticalIssues, hl, his, Except.map]⟩

theorem buildCriticalIssues_err (vs : List (Str × Str)) :
    ∀ l : List Str, (∃ k ∈ l, pyLookup vs k = none) →
      ∃ k, buildCriticalIssues vs l = .error k ∧ pyLookup vs k = none ∧
        k ∈ l := by
  intro l
  induction l with
  | nil => rintro ⟨k, hk, _⟩; cases hk
  | cons v rest ih =>
    rintro ⟨k, hk, hnone⟩
    cases hl : pyLookup vs v with
    | none =>
      exact ⟨v, by simp [buildCriticalIssues, hl], hl,
        List.mem_cons_self _ _⟩
    | some val =>
      have hkr : k ∈ rest := by
        rcases List.mem_cons.mp hk with rfl | h2
        · rw [hl] at hnone; cases hnone
        · exact h2
      obtain ⟨k2, hb, hn2, hm2⟩ := ih ⟨k, hkr, hnone⟩
      exact ⟨k2, by simp [buildCriticalIssues, hl, hb, Except.map], hn2,
        List.mem_cons_of_mem _ hm2⟩

/-- C4 (amended): whenever the tracker's usage check reports at least one
unused variable and every unused key is present in the passed variable map
(always the case when the tracker holds exactly the session's variables),
`validator_agent` returns `is_valid = false` and a score of at most 0.3,
whatever the LLM response contains — including when it is unparseable;
when some unused key is absent from the passed map, the `variables[var]`
subscript in the issue loop raises `KeyError` at the first such key
instead of returning a result. -/
theorem validator_agent_forces_invalid (tracker : VariableTracker)
    (terraform_code : Str) (vs : List (Str × Str))
    (llm : Option ValidatorLLMResp) :
    ((tracker.check_usage_in_code terraform_code).1.2 ≠ [] →
      (∀ k ∈ (tracker.check_usage_in_code terraform_code).1.2,
        (pyLookup vs k).isSome = true) →
      ∃ r tr, validator_agent tracker terraform_code vs llm = .ok (r, tr) ∧
        r.is_valid = false ∧ r.score ≤ 3/10) ∧
    ((∃ k ∈ (tracker.check_usage_in_code terraform_code).1.2,
        pyLookup vs k = none) →
      ∃ k, validator_agent tracker terraform_code vs llm = .error k ∧
        pyLookup vs k = none ∧
        k ∈ (tracker.check_usage_in_code terraform_code).1.2) := by
  constructor
  · intro hne hall
    obtain ⟨issues, his⟩ := buildCriticalIssues_isSome vs _ hall
    cases he : (tracker.check_usage_in_code terraform_code).1.2 with
    | nil => exact absurd he hne
    | cons a l =>
      rw [he] at his
      cases llm with
      | none =>
        refine ⟨⟨(a :: l).length == 0, issues, [],
            if (a :: l).isEmpty then (8/10 : ℚ) else 3/10⟩,
          (tracker.check_usage_in_code terraform_code).2, ?_, ?_, ?_⟩
        · simp only [validator_agent, he, his]
        · rfl
        · exact le_refl _
      | some rd =>
        refine ⟨⟨rd.is_valid.getD true && ((a :: l).length == 0),
            issues ++ rd.issues.getD [], rd.suggestions.getD [],
            if (a :: l).isEmpty then rd.score.getD (8/10) else 3/10⟩,
          (tracker.check_usage_in_code terraform_code).2, ?_, ?_, ?_⟩
        · simp only [validator_agent, he, his]
        · rw [show ((a :: l).length == 0) = false from rfl, Bool.and_false]
        · exact le_refl _
  · intro hex
    obtain ⟨k, hb, hn, hm⟩ := buildCriticalIssues_err vs _ hex
    refine ⟨k, ?_, hn, hm⟩
    simp only [validator_agent, hb]

/-- Counterexample to C4 as stated: on the cross-session tracker state that
C2 exhibits (stale key `a` from an earlier session, current map `b ↦ y`),
the unused variable `a` is absent from the passed map, so the issue loop's
`variables["a"]` subscript raises `KeyError` — the call returns no
`ValidationResult` at all, let alone one with `is_valid = false`. -/
theorem validator_agent_keyerror_cex :
    validator_agent
      ((VariableTracker.new.add_variables
        [("a".data, "x".data)]).add_variables [("b".data, "y".data)])
      "resource y".data [("b".data, "y".data)]
      (some ⟨some true, some [], some [], some 1⟩) = .error "a".data ∧
    ¬ ∃ p, validator_agent
      ((VariableTracker.new.add_variables
        [("a".data, "x".data)]).add_variables [("b".data, "y".data)])
      "resource y".data [("b".data, "y".data)]
      (some ⟨some true, some [], some [], some 1⟩) = .ok p := by
  constructor
  · rfl
  · rintro ⟨p, hp⟩
    rw [show validator_agent
      ((VariableTracker.new.add_variables
        [("a".data, "x".data)]).add_variables [("b".data, "y".data)])
      "resource y".data [("b".data, "y".data)]
      (some ⟨some true, some [], some [], some 1⟩) =
        Except.error "a".data from rfl] at hp
    exact Except.noConfusion hp

/-- Witness for the amended C4 theorem: a tracker holding one variable
whose value is absent from the (empty) code, with that key present in the
passed map and an LLM response claiming validity and a perfect score, is
still reported invalid with score 0.3. -/
theorem validator_agent_forces_invalid_witness :
    ∃ r tr, validator_agent
      (VariableTracker.new.add_variables [("a".data, "x".data)]) []
      [("a".data, "x".data)]
      (some ⟨some true, some [], some [], some 1⟩) = .ok (r, tr) ∧
      r.is_valid = false ∧ r.score ≤ 3/10 :=
  (validator_agent_forces_invalid _ _ _ _).1 (by decide) (by decide)

/-! ### MultiAgentGeneration.extract_terraform_code and generator_agent -/

/-- `isPrefixB` on reversed strings: Python `s.endswith(pat)`. -/
def isSuffixB (pat s : Str) : Bool := isPrefixB pat.reverse s.reverse

/-- The optional fence language tag `(?:hcl|terraform|tf)?` (greedy,
alternatives tried in order). -/
def fenceTagRest (s : Str) : Str :=
  if isPrefixB "hcl".data s then s.drop 3
  else if isPrefixB "terraform".data s then s.drop 9
  else if isPrefixB "tf".data s then s.drop 2
  else s

/-- The optional trailing newline `\n?` of the fence pattern (greedy). -/
def dropOptNl : Str → Str
  | '\n' :: t => t
  | s => s

/-- Left-to-right, non-overlapping removal of every occurrence of the
pattern `` ```(?:hcl|terraform|tf)?\n? `` (first `re.sub` of
`extract_terraform_code`). Runs on fuel: every step consumes at least one
character, so `fuel = s.length` always suffices. -/
def removeFence1Fuel : Nat → Str → Str
  | 0, s => s
  | _ + 1, [] => []
  | fuel + 1, c :: t =>
    if isPrefixB "```".data (c :: t) then
      removeFence1Fuel fuel (dropOptNl (fenceTagRest ((c :: t).drop 3)))
    else c :: removeFence1Fuel fuel t

/-- `re.sub(r'```(?:hcl|terraform|tf)?\n?', '', text)`. -/
def removeFence1 (s : Str) : Str := removeFence1Fuel s.length s

/-- `re.sub(r'```\n?$', '', code)`: without `re.MULTILINE`, `$` matches at
the very end or just before a trailing newline, and the greedy `\n?`
consumes that newline, so this strips a trailing `` ```\n `` or `` ``` ``. -/
def removeEndFence (s : Str) : Str :=
  if isSuffixB ("```\n".data) s then s.take (s.length - 4)
  else if isSuffixB ("```".data) s then s.take (s.length - 3)
  else s

/-- The Terraform keywords whose presence in a stripped line switches
`in_terraform_block` on. -/
def tf_keywords : List Str :=
  ["resource".data, "variable".data, "output".data, "data".data,
   "locals".data, "terraform".data, "provider".data]

/-- The prose phrases whose presence (lowercased) drops a line. -/
def prose_phrases : List Str :=
  ["here is".data, "this code".data, "explanation:".data, "note:".data,
   "this will".data, "the above".data, "this terraform".data]

/-- The line-filtering loop of `extract_terraform_code`: keeps comment
lines, blank lines, and non-prose lines once a Terraform keyword has been
seen. -/
def extractLinesLoop : Bool → List Str → List Str
  | _, [] => []
  | in_terraform_block, line :: rest =>
    let stripped := pyStrip line
    let in_tf := in_terraform_block ||
      tf_keywords.any (fun k => hasSubstr stripped k)
    if in_tf then
      if isPrefixB "#".data stripped || isPrefixB "//".data stripped then
        line :: extractLinesLoop in_tf rest
      else if !stripped.isEmpty &&
          !prose_phrases.any (fun w => hasSubstr (toLowerStr stripped) w) then
        line :: extractLinesLoop in_tf rest
      else if stripped.isEmpty then
        line :: extractLinesLoop in_tf rest
      else extractLinesLoop in_tf rest
    else extractLinesLoop in_tf rest

/-- `MultiAgentGeneration.extract_terraform_code`. -/
def extract_terraform_code (response_text : Str) : Str :=
  let code := removeFence1 response_text
  let code2 := removeEndFence code
  let lines := pyLines code2
  let clean_lines := extractLinesLoop false lines
  pyStrip (List.intercalate ['\n'] clean_lines)

/-- Observable outcome of one `generator_agent` call: the returned code,
the tracker state left in the instance, and the `(used, unused)` pair of
the last tracker check performed. -/
structure GenResult where
  code : Str
  tracker : VariableTracker
  used : List Str
  unused : List Str
deriving DecidableEq

/-- The `unused_details` comprehension of the fix prompt
(`'\n'.join([f"  • {var} = \"{variables[var]}\"" for var in unused_vars])`):
the dict subscript `variables[var]` raises `KeyError` when an unused
tracker key is absent from the passed map, so building the details is
fallible — `.error k` is the `KeyError` raised at the first missing key. -/
def buildUnusedDetails (vs : List (Str × Str)) : List Str →
    Except Str (List Str)
  | [] => .ok []
  | v :: rest =>
    match pyLookup vs v with
    | none => .error v
    | some val =>
      (buildUnusedDetails vs rest).map
        (fun details =>
          ("  • ".data ++ v ++ " = \"".data ++ val ++ "\"".data) :: details)

/-- The `for attempt in range(max_attempts)` loop of `generator_agent`:
each iteration generates code from the LLM (`gen attempt`), extracts it and
checks usage; with no unused variable it returns immediately; otherwise,
except on the last attempt, the fix prompt is built — its
`variables[var]` subscripts raise `KeyError` (modelled as `.error`) when an
unused tracker key is absent from the passed map — and the fix response
(`fix attempt`) is extracted and becomes the code carried to the next
iteration (where it is immediately regenerated) or, after the loop, to the
final check. -/
def genLoopAux (vs : List (Str × Str)) (gen fix : Nat → Str)
    (max_attempts : Nat) :
    List Nat → VariableTracker → Str → Except Str GenResult
  | [], t, lastCode =>
    let chk := t.check_usage_in_code lastCode
    .ok ⟨lastCode, chk.2, chk.1.1, chk.1.2⟩
  | attempt :: rest, t, _ =>
    let terraform_code := extract_terraform_code (gen attempt)
    let chk := t.check_usage_in_code terraform_code
    if chk.1.2.isEmpty then .ok ⟨terraform_code, chk.2, chk.1.1, chk.1.2⟩
    else if attempt < max_attempts - 1 then
      match buildUnusedDetails vs chk.1.2 with
      | .error k => .error k
      | .ok _ =>
        genLoopAux vs gen fix max_attempts rest chk.2
          (extract_terraform_code (fix attempt))
    else genLoopAux vs gen fix max_attempts rest chk.2 terraform_code

/-- `MultiAgentGeneration.generator_agent`: merges the new variables into
the instance tracker (`add_variables` — no reset), then runs the attempt
loop; `.error k` models the `KeyError` the fix prompt raises at a missing
key `k`. `gen`/`fix` are the LLM oracles per attempt index. (For
`max_attempts = 0` the Python would hit an unbound local; the source always
calls with 3.) -/
def generator_agent (tracker : VariableTracker) (vs : List (Str × Str))
    (gen fix : Nat → Str) (max_attempts : Nat := 3) :
    Except Str GenResult :=
  genLoopAux vs gen fix max_attempts (List.range max_attempts)
    (tracker.add_variables vs) []

theorem check_usage_used_eq (t : VariableTracker) (code : Str) :
    (t.check_usage_in_code code).1.1 =
      (checkUsageList code t.variable_usage_map).1 := rfl

theorem check_usage_unused_eq (t : VariableTracker) (code : Str) :
    (t.check_usage_in_code code).1.2 =
      (checkUsageList code t.variable_usage_map).2.1 := rfl

/-- Every key of the checked map lands in exactly the union of the
`used` and `unused` lists. -/
theorem mem_check_total (code : Str) (m : List (Str × VarInfo)) (k : Str) :
    (k ∈ (checkUsageList code m).1 ∨ k ∈ (checkUsageList code m).2.1) ↔
      k ∈ m.map Prod.fst := by
  rw [mem_checkUsed_iff, mem_checkUnused_iff]
  constructor
  · rintro (⟨i, hm, _⟩ | ⟨i, hm, _⟩) <;> exact List.mem_map.mpr ⟨(k, i), hm, rfl⟩
  · intro h
    obtain ⟨p, hp, rfl⟩ := List.mem_map.mp h
    cases hs : hasSubstr code p.2.value
    · exact Or.inr ⟨p.2, hp, hs⟩
    · exact Or.inl ⟨p.2, hp, hs⟩

/-- C2 (amended): tracker state persists across `generator_agent` calls on
the same `MultiAgentGeneration` instance. A later call checks usage over
the union of the earlier sessions' keys and the new map's keys: on the new
map's keys the check agrees with a fresh instance (each such entry is
overwritten fresh by `add_variables`), but keys tracked earlier and absent
from the new map also take part in the check, so in general the
`(used, unused)` results differ from a freshly constructed instance (see
the counterexample). -/
theorem generator_agent_tracker_merge (t : VariableTracker)
    (V2 : List (Str × Str)) (C : Str)
    (hndt : keysNodup t.variable_usage_map)
    (hnd2 : (V2.map Prod.fst).Nodup) :
    (∀ k val, (k, val) ∈ V2 →
      (k ∈ ((t.add_variables V2).check_usage_in_code C).1.1 ↔
        val <:+: C)) ∧
    (∀ k, (k ∈ ((t.add_variables V2).check_usage_in_code C).1.1 ∨
           k ∈ ((t.add_variables V2).check_usage_in_code C).1.2) ↔
      (k ∈ t.variable_usage_map.map Prod.fst ∨ k ∈ V2.map Prod.fst)) := by
  have hndm : keysNodup (addUsageMap t.variable_usage_map V2) :=
    keysNodup_addUsageMap _ _ hndt
  constructor
  · intro k val hm
    rw [check_usage_used_eq, add_variables_usage_map, mem_checkUsed_iff]
    have hl : pyLookup (addUsageMap t.variable_usage_map V2) k =
        some ⟨val, false, []⟩ :=
      pyLookup_addUsageMap_of_mem _ _ _ _ hnd2 hm
    constructor
    · rintro ⟨info, hmem, hs⟩
      have he : info = ⟨val, false, []⟩ :=
        mem_eq_of_keysNodup hndm hmem (mem_of_pyLookup hl)
      rw [he] at hs
      exact (hasSubstr_iff C val).mp hs
    · intro h
      exact ⟨⟨val, false, []⟩, mem_of_pyLookup hl,
        (hasSubstr_iff C val).mpr h⟩
  · intro k
    rw [check_usage_used_eq, check_usage_unused_eq, add_variables_usage_map,
      mem_check_total, mem_keys_addUsageMap]

/-- LLM generation oracle of the C2 counterexample: attempts 0 and 1
return a line containing the first session's value `x` (and the keyword
`resource`, so line filtering keeps it); attempt 2 returns a line
containing `y` instead. With these responses no fix prompt ever sees a
stale key (its `variables[var]` subscripts never raise), because the stale
key only becomes unused at the last attempt, where the source skips the
fix prompt. -/
def c2gen : Nat → Str :=
  fun n => if n < 2 then "resource x".data else "resource y".data

/-- Fix-LLM oracle of the C2 counterexample (its output is regenerated at
the top of the next attempt, so any keyword-bearing line will do). -/
def c2fix : Nat → Str := fun _ => "resource x".data

/-- First-session variable map for the C2 counterexample. -/
def c2V1 : List (Str × Str) := [("a".data, "x".data)]

/-- Second-session variable map for the C2 counterexample. -/
def c2V2 : List (Str × Str) := [("b".data, "y".data)]

/-- Counterexample to C2 as stated: the first `generator_agent` session
with the map `a ↦ x` converges at attempt 0 (its code contains `x`) and
leaves the tracker holding `a`. A second session on the same instance with
`b ↦ y` then completes without raising — every fix prompt only sees the
current key `b` — and its final check reports `unused = [a]`: the stale
first-session key appears in the second session's usage check, whereas a
freshly constructed instance reports `unused = []` for the same map and
the same LLM responses. -/
theorem generator_agent_state_leak_cex :
    (generator_agent VariableTracker.new c2V1 c2gen c2fix 3).toOption =
      some ⟨"resource x".data,
        ⟨[("a".data, "x".data)], [("a".data, ⟨"x".data, true, [1]⟩)]⟩,
        ["a".data], []⟩ ∧
    (generator_agent (⟨[("a".data, "x".data)],
        [("a".data, ⟨"x".data, true, [1]⟩)]⟩ : VariableTracker)
      c2V2 c2gen c2fix 3).toOption.map GenResult.unused =
      some ["a".data] ∧
    (generator_agent VariableTracker.new c2V2 c2gen c2fix
      3).toOption.map GenResult.unused = some [] ∧
    (generator_agent (⟨[("a".data, "x".data)],
        [("a".data, ⟨"x".data, true, [1]⟩)]⟩ : VariableTracker)
      c2V2 c2gen c2fix 3).toOption.map GenResult.unused ≠
    (generator_agent VariableTracker.new c2V2 c2gen c2fix
      3).toOption.map GenResult.unused := by
  refine ⟨by decide, by decide, by decide, by decide⟩

/-- Witness for the amended C2 theorem at a concrete dirty tracker, map and
code string. -/
theorem generator_agent_tracker_merge_witness :
    ("b".data ∈ (((VariableTracker.new.add_variables
        c2V1).add_variables c2V2).check_usage_in_code
        "resource y".data).1.1 ↔ "y".data <:+: "resource y".data) ∧
    (("a".data ∈ (((VariableTracker.new.add_variables
        c2V1).add_variables c2V2).check_usage_in_code
        "resource y".data).1.1 ∨
      "a".data ∈ (((VariableTracker.new.add_variables
        c2V1).add_variables c2V2).check_usage_in_code
        "resource y".data).1.2) ↔
      ("a".data ∈ ((VariableTracker.new.add_variables
        c2V1).variable_usage_map).map Prod.fst ∨
       "a".data ∈ c2V2.map Prod.fst)) := by
  have h := generator_agent_tracker_merge
    (VariableTracker.new.add_variables c2V1) c2V2 "resource y".data
    (by rw [keysNodup]; decide) (by decide)
  exact ⟨h.1 "b".data "y".data (by decide), h.2 "a".data⟩

/-! ### LLMInputValidator (`rag_pipeline.py`) -/

/-- `ValidationIssue` dataclass. -/
structure ValidationIssue where
  field : Str
  original_value : Str
  issue_type : Str
  severity : Str
  message : Str
  suggested_correction : Option Str
deriving DecidableEq

/-- `CorrectionResult` dataclass. -/
structure CorrectionResult where
  corrected_variables : List (Str × Str)
  issues : List ValidationIssue
  auto_corrected : List Str
  needs_confirmation : List ValidationIssue
deriving DecidableEq

/-- The per-field record of the validator LLM JSON (each field read with a
`.get` default). -/
structure FieldValidation where
  is_valid : Option Bool
  severity : Option Str
  corrected_value : Option Str
  message : Option Str
  issue_type : Option Str
  auto_correct_confidence : Option ℚ

/-- The top-level validator LLM JSON. -/
structure LLMValidationResp where
  corrected_variables : Option (List (Str × Str))
  fields : Option (List (Str × FieldValidation))
  overall_assessment : Option Str

/-- Outcome of the LLM round trip inside `_llm_validate_all_variables`:
the call raised, the response contained no brace-delimited JSON, or a
parsed payload. -/
inductive LLMValidateOutcome where
  | exnFailure (msg : Str)
  | noJsonMatch
  | parsed (resp : LLMValidationResp)

/-- `LLMInputValidator._llm_validate_all_variables`: on an exception or an
unparseable response, fall back to the original variables with no field
reports. -/
def llm_validate_all_variables (vs : List (Str × Str))
    (outcome : LLMValidateOutcome) : LLMValidationResp :=
  match outcome with
  | .parsed r => r
  | .noJsonMatch => ⟨some vs, some [], some "Validation skipped".data⟩
  | .exnFailure msg =>
    ⟨some vs, some [], some ("Validation error: ".data ++ msg)⟩

/-- One iteration of the field loop in `validate_and_correct`; the
accumulator is `(corrected_variables, auto_corrected, needs_confirmation,
issues)`. -/
def processField (vs : List (Str × Str))
    (acc : List (Str × Str) × List Str × List ValidationIssue ×
      List ValidationIssue)
    (fp : Str × FieldValidation) :
    List (Str × Str) × List Str × List ValidationIssue ×
      List ValidationIssue :=
  let fv := fp.2
  let is_valid := fv.is_valid.getD true
  let severity := fv.severity.getD "info".data
  let original_value := (pyLookup vs fp.1).getD []
  let corrected_value := fv.corrected_value.getD original_value
  let issue_message := fv.message.getD []
  if is_valid = false then
    let issue : ValidationIssue :=
      ⟨fp.1, original_value, fv.issue_type.getD "validation_error".data,
        severity, issue_message,
        if corrected_value ≠ original_value then some corrected_value
        else none⟩
    if fv.auto_correct_confidence.getD 0 ≥ 8/10 then
      (dictUpdate acc.1 fp.1 corrected_value, acc.2.1 ++ [fp.1], acc.2.2.1,
        acc.2.2.2 ++ [issue])
    else
      (dictUpdate acc.1 fp.1 corrected_value, acc.2.1,
        acc.2.2.1 ++ [issue], acc.2.2.2 ++ [issue])
  else
    if corrected_value ≠ original_value then
      (dictUpdate acc.1 fp.1 corrected_value, acc.2.1 ++ [fp.1], acc.2.2.1,
        acc.2.2.2)
    else acc

/-- `LLMInputValidator.validate_and_correct`: empty input short-circuits to
an empty result with no LLM call; otherwise the LLM verdict is folded over
the reported fields (auto-correct at confidence ≥ 0.8, else queued for
confirmation with the correction provisionally applied; silent
normalisation of valid-but-rewritten fields). -/
def validate_and_correct (vs : List (Str × Str)) (resource_type : Str)
    (outcome : LLMValidateOutcome) : CorrectionResult :=
  if vs.isEmpty then ⟨[], [], [], []⟩
  else
    let validation_result := llm_validate_all_variables vs outcome
    let corrected0 := validation_result.corrected_variables.getD vs
    let r := (validation_result.fields.getD []).foldl (processField vs)
      (corrected0, [], [], [])
    ⟨r.1, r.2.2.2, r.2.1, r.2.2.1⟩

/-- C5: for every non-empty variable map, if the LLM call raises or its
response text contains no extractable JSON object, `validate_and_correct`
returns (without raising) the identity transform of its input:
`corrected_variables` equal to the input map and empty `issues`,
`auto_corrected` and `needs_confirmation` lists. -/
theorem validate_and_correct_identity_on_failure (vs : List (Str × Str))
    (resource_type : Str) (outcome : LLMValidateOutcome)
    (hne : vs ≠ [])
    (hfail : (∃ msg, outcome = .exnFailure msg) ∨ outcome = .noJsonMatch) :
    validate_and_correct vs resource_type outcome = ⟨vs, [], [], []⟩ := by
  have hvs : vs.isEmpty = false := by
    cases vs with
    | nil => exact absurd rfl hne
    | cons a l => rfl
  rcases hfail with ⟨msg, rfl⟩ | rfl <;>
    simp [validate_and_correct, llm_validate_all_variables, hvs]

/-- Witness for C5 at a concrete one-entry map and the no-JSON outcome. -/
theorem validate_and_correct_identity_on_failure_witness :
    validate_and_correct [("acl".data, "yes".data)] "S3 bucket".data
      .noJsonMatch = ⟨[("acl".data, "yes".data)], [], [], []⟩ :=
  validate_and_correct_identity_on_failure _ _ _ (by decide) (Or.inr rfl)

/-! ### ReflectionQA (`rag_pipeline.py`) -/

/-- The critique JSON produced by `self_critique` (each field read with a
`.get` default where the source does). -/
structure RawCritique where
  overall_quality : Option ℚ
  strengths : Option (List Str)
  weaknesses : Option (List Str)
  must_fix : Option (List Str)
  improvements : Option (List Str)
  all_variables_used : Option Bool
deriving DecidableEq

/-- Must-fix message `f"CRITICAL: Add user value ... to the code"` appended
by the parsed branch of `self_critique`. -/
def critiqueMustFixMsg (k v : Str) : Str :=
  "CRITICAL: Add user value ".data ++ k ++ " = ".data ++ [pyApos] ++ v ++
    [pyApos] ++ " to the code".data

/-- `ReflectionQA.self_critique` (tracker-relevant behaviour): reads the
tracker's unused variables; on a parsed LLM critique it overrides
`all_variables_used` with the tracker ground truth and extends `must_fix`
with one message per unused variable; on parse failure it substitutes the
deterministic local critique (quality 0.4 with unused variables, else 0.8).
`llm = none` models both the exception path and the no-JSON path. -/
def self_critique (tracker : VariableTracker) (llm : Option RawCritique) :
    RawCritique :=
  let unused_vars := tracker.get_unused_variables
  match llm with
  | some critique =>
    if !unused_vars.isEmpty then
      ⟨critique.overall_quality, critique.strengths, critique.weaknesses,
        some (critique.must_fix.getD [] ++
          unused_vars.map (fun p => critiqueMustFixMsg p.1 p.2)),
        critique.improvements, some false⟩
    else
      ⟨critique.overall_quality, critique.strengths, critique.weaknesses,
        critique.must_fix, critique.improvements, some true⟩
  | none =>
    ⟨some (if !unused_vars.isEmpty then 2/5 else 4/5),
      some [],
      some (unused_vars.map (fun p => "Missing variable: ".data ++ p.1)),
      some (unused_vars.map (fun p =>
        "Add ".data ++ p.1 ++ " = ".data ++ [pyApos] ++ p.2 ++ [pyApos])),
      some [],
      some unused_vars.isEmpty⟩

/-- Left-to-right removal of the untagged pattern `` ```\n? `` (second
`re.sub` of `iterative_refinement`). Fuel = length always suffices. -/
def removeFence2Fuel : Nat → Str → Str
  | 0, s => s
  | _ + 1, [] => []
  | fuel + 1, c :: t =>
    if isPrefixB "```".data (c :: t) then
      removeFence2Fuel fuel (dropOptNl ((c :: t).drop 3))
    else c :: removeFence2Fuel fuel t

/-- `re.sub(r'```\n?', '', s)`. -/
def removeFence2 (s : Str) : Str := removeFence2Fuel s.length s

/-- `ReflectionQA.iterative_refinement`: returns the code unchanged when
the critique is clean or when no variable is unused; otherwise the LLM
response (`llmText`), stripped of code fences and whitespace. -/
def iterative_refinement (terraform_code : Str) (critique : RawCritique)
    (tracker : VariableTracker) (llmText : Str) : Str :=
  if critique.all_variables_used.getD false &&
      (critique.must_fix.getD []).isEmpty then terraform_code
  else
    let unused_vars := tracker.get_unused_variables
    if unused_vars.isEmpty then terraform_code
    else pyStrip (removeFence2 (removeFence1 llmText))

/-- The convergence test of `reflection_qa_pipeline`:
`all_variables_used` and `overall_quality >= 0.85` and no must-fix items. -/
def convergedB (critique : RawCritique) : Bool :=
  critique.all_variables_used.getD false &&
    decide ((85/100 : ℚ) ≤ critique.overall_quality.getD 0) &&
    (critique.must_fix.getD []).isEmpty

/-- The iteration loop of `reflection_qa_pipeline` over the remaining
iteration indices. Each iteration resets the tracker's usage map, re-adds
the variables, re-checks the current code, synthesises a critique
(`critO i` is the LLM critique oracle, `refO i` the refinement-LLM text),
stops when the critique converges, and otherwise refines when unused
variables or must-fix items exist. Returns
`(code, tracker, critiques in order, refinement calls, converged)`. -/
def reflectLoopAux (critO : Nat → Option RawCritique) (refO : Nat → Str)
    (vs : List (Str × Str)) :
    List Nat → Str → VariableTracker →
      Str × VariableTracker × List RawCritique × Nat × Bool
  | [], code, t => (code, t, [], 0, false)
  | i :: rest, code, t =>
    let t1 := ({ t with variable_usage_map := [] }).add_variables vs
    let chk := t1.check_usage_in_code code
    let critique := self_critique chk.2 (critO i)
    if convergedB critique then (code, chk.2, [critique], 0, true)
    else if !chk.1.2.isEmpty || !(critique.must_fix.getD []).isEmpty then
      let r := reflectLoopAux critO refO vs rest
        (iterative_refinement code critique chk.2 (refO i)) chk.2
      (r.1, r.2.1, critique :: r.2.2.1, r.2.2.2.1 + 1, r.2.2.2.2)
    else
      let r := reflectLoopAux critO refO vs rest code chk.2
      (r.1, r.2.1, critique :: r.2.2.1, r.2.2.2.1, r.2.2.2.2)

/-- Result record of `reflection_qa_pipeline` (code plus the observable
loop history). -/
structure ReflectionResult where
  code : Str
  tracker : VariableTracker
  critiques : List RawCritique
  refinements : Nat
  converged : Bool

/-- `ReflectionQA.reflection_qa_pipeline`: run the loop for at most
`max_iterations` (default 4) iterations, then re-verify the final code once
more outside the loop (reset + add + check — log-only). -/
def reflection_qa_pipeline (critO : Nat → Option RawCritique)
    (refO : Nat → Str) (terraform_code : Str) (vs : List (Str × Str))
    (tracker : VariableTracker) (max_iterations : Nat := 4) :
    ReflectionResult :=
  let r := reflectLoopAux critO refO vs (List.range max_iterations)
    terraform_code tracker
  let tf := ({ r.2.1 with variable_usage_map := [] }).add_variables vs
  let chk := tf.check_usage_in_code r.1
  ⟨r.1, chk.2, r.2.2.1, r.2.2.2.1, r.2.2.2.2⟩

/-- The convergence bookkeeping of the reflection loop: the list of
critiques produced is bounded by the iteration budget; when the loop
reports convergence, exactly the last critique satisfied the convergence
test and no earlier one did; when it does not, the whole budget was used
and no critique satisfied the test. -/
def critiquesOk (cs : List RawCritique) (conv : Bool) (n : Nat) : Prop :=
  cs.length ≤ n ∧
  (conv = true → ∃ cs0 c, cs = cs0 ++ [c] ∧ convergedB c = true ∧
    ∀ x ∈ cs0, convergedB x = false) ∧
  (conv = false → cs.length = n ∧ ∀ x ∈ cs, convergedB x = false)

theorem critiquesOk_cons (critique : RawCritique) (cs : List RawCritique)
    (conv : Bool) (n : Nat) (h : critiquesOk cs conv n)
    (hc : convergedB critique = false) :
    critiquesOk (critique :: cs) conv (n + 1) := by
  obtain ⟨h1, h2, h3⟩ := h
  refine ⟨by simpa using Nat.succ_le_succ h1, ?_, ?_⟩
  · intro ht
    obtain ⟨cs0, c, rfl, hcv, hall⟩ := h2 ht
    refine ⟨critique :: cs0, c, rfl, hcv, ?_⟩
    intro x hx
    rcases List.mem_cons.mp hx with rfl | hx2
    · exact hc
    · exact hall x hx2
  · intro hf
    obtain ⟨hl, hall⟩ := h3 hf
    refine ⟨by simp [hl], ?_⟩
    intro x hx
    rcases List.mem_cons.mp hx with rfl | hx2
    · exact hc
    · exact hall x hx2

theorem reflectLoopAux_critiquesOk (critO : Nat → Option RawCritique)
    (refO : Nat → Str) (vs : List (Str × Str)) :
    ∀ (idxs : List Nat) (code : Str) (t : VariableTracker),
      critiquesOk (reflectLoopAux critO refO vs idxs code t).2.2.1
        (reflectLoopAux critO refO vs idxs code t).2.2.2.2 idxs.length := by
  intro idxs
  induction idxs with
  | nil =>
    intro code t
    refine ⟨Nat.le_refl _, ?_, ?_⟩
    · intro h; cases h
    · intro _; exact ⟨rfl, fun x hx => absurd hx (List.not_mem_nil x)⟩
  | cons i rest ih =>
    intro code t
    simp only [reflectLoopAux]
    split
    next hconv =>
      refine ⟨by simpa using Nat.succ_le_succ (Nat.zero_le _), ?_, ?_⟩
      · intro _
        exact ⟨[], _, rfl, hconv, fun x hx => absurd hx (List.not_mem_nil x)⟩
      · intro hf; cases hf
    next hconv =>
      have hcf : convergedB (self_critique
          ((({ t with variable_usage_map := [] }).add_variables
            vs).check_usage_in_code code).2 (critO i)) = false := by
        cases hx : convergedB (self_critique
            ((({ t with variable_usage_map := [] }).add_variables
              vs).check_usage_in_code code).2 (critO i))
        · rfl
        · exact absurd hx hconv
      split
      · exact critiquesOk_cons _ _ _ _ (ih _ _) hcf
      · exact critiquesOk_cons _ _ _ _ (ih _ _) hcf

/-- If the very first iteration's critique passes the convergence test, the
loop stops there, returning that single critique, zero refinement calls and
`converged = true`. -/
theorem reflectLoopAux_first_converges (critO : Nat → Option RawCritique)
    (refO : Nat → Str) (vs : List (Str × Str)) (i : Nat) (rest : List Nat)
    (code : Str) (t : VariableTracker)
    (hconv : convergedB (self_critique
      ((({ t with variable_usage_map := [] }).add_variables
        vs).check_usage_in_code code).2 (critO i)) = true) :
    reflectLoopAux critO refO vs (i :: rest) code t =
      (code,
       ((({ t with variable_usage_map := [] }).add_variables
         vs).check_usage_in_code code).2,
       [self_critique ((({ t with variable_usage_map := [] }).add_variables
         vs).check_usage_in_code code).2 (critO i)], 0, true) := by
  simp only [reflectLoopAux]
  rw [if_pos hconv]

/-- Scenario inputs for C6: one variable whose value already occurs in the
code. -/
def c6V : List (Str × Str) := [("bucket_name".data, "data-prod-2024".data)]

/-- Scenario code for C6: contains the value verbatim. -/
def c6code : Str := "bucket = \"data-prod-2024\"".data

/-- Scenario critique oracle for C6: quality 0.9, nothing to fix. -/
def c6critO : Nat → Option RawCritique :=
  fun _ => some ⟨some (9/10), some [], some [], some [], some [], some true⟩

/-- Scenario refinement oracle for C6 (never reached). -/
def c6refO : Nat → Str := fun _ => []

/-- C6: the reflection loop stops exactly when the critique reports
`all_variables_used`, `overall_quality ≥ 0.85` and an empty `must_fix`
list (`convergedB`/`critiquesOk`), and runs at most `max_iterations`
iterations (the source default is 4); in particular, on code already
containing every variable with a critique of quality 0.9 and no must-fix
items, it exits after the first iteration with no call to
`iterative_refinement`. -/
theorem reflection_qa_pipeline_convergence :
    (∀ (critO : Nat → Option RawCritique) (refO : Nat → Str) (code : Str)
        (vs : List (Str × Str)) (t : VariableTracker) (max_iterations : Nat),
      critiquesOk
        (reflection_qa_pipeline critO refO code vs t
          max_iterations).critiques
        (reflection_qa_pipeline critO refO code vs t
          max_iterations).converged max_iterations) ∧
    (reflection_qa_pipeline c6critO c6refO c6code c6V VariableTracker.new
      4).critiques.length = 1 ∧
    (reflection_qa_pipeline c6critO c6refO c6code c6V VariableTracker.new
      4).refinements = 0 ∧
    (reflection_qa_pipeline c6critO c6refO c6code c6V VariableTracker.new
      4).converged = true ∧
    (reflection_qa_pipeline c6critO c6refO c6code c6V VariableTracker.new
      4).code = c6code := by
  have hgen : ∀ (critO : Nat → Option RawCritique) (refO : Nat → Str)
      (code : Str) (vs : List (Str × Str)) (t : VariableTracker)
      (max_iterations : Nat),
      critiquesOk
        (reflection_qa_pipeline critO refO code vs t
          max_iterations).critiques
        (reflection_qa_pipeline critO refO code vs t
          max_iterations).converged max_iterations := by
    intro critO refO code vs t max_iterations
    have h := reflectLoopAux_critiquesOk critO refO vs
      (List.range max_iterations) code t
    rw [List.length_range] at h
    exact h
  have hu : (((({ (VariableTracker.new : VariableTracker) with
      variable_usage_map := [] }).add_variables
      c6V).check_usage_in_code c6code).2).get_unused_variables = [] := by
    decide
  have hconv : convergedB (self_critique
      ((({ (VariableTracker.new : VariableTracker) with
        variable_usage_map := [] }).add_variables
        c6V).check_usage_in_code c6code).2 (c6critO 0)) = true := by
    have hcrit : self_critique
        ((({ (VariableTracker.new : VariableTracker) with
          variable_usage_map := [] }).add_variables
          c6V).check_usage_in_code c6code).2 (c6critO 0) =
        ⟨some (9/10), some [], some [], some [], some [], some true⟩ := by
      simp [self_critique, c6critO, hu]
    rw [hcrit]
    simp only [convergedB, Option.getD_some, List.isEmpty_nil, Bool.and_true,
      Bool.true_and]
    exact decide_eq_true (by norm_num)
  have hrun := reflectLoopAux_first_converges c6critO c6refO c6V 0 [1, 2, 3]
    c6code VariableTracker.new hconv
  have hrange : List.range 4 = 0 :: [1, 2, 3] := by decide
  refine ⟨hgen, ?_, ?_, ?_, ?_⟩
  · show (reflectLoopAux c6critO c6refO c6V (List.range 4) c6code
      VariableTracker.new).2.2.1.length = 1
    rw [hrange, hrun]
    rfl
  · show (reflectLoopAux c6critO c6refO c6V (List.range 4) c6code
      VariableTracker.new).2.2.2.1 = 0
    rw [hrange, hrun]
  · show (reflectLoopAux c6critO c6refO c6V (List.range 4) c6code
      VariableTracker.new).2.2.2.2 = true
    rw [hrange, hrun]
  · show (reflectLoopAux c6critO c6refO c6V (List.range 4) c6code
      VariableTracker.new).1 = c6code
    rw [hrange, hrun]

/-! ### TerraformSandboxTester (`sandbox_testing.py`) -/

namespace Sandbox

/-- `ValidationResult` dataclass of `sandbox_testing.py`. -/
structure ValidationResult where
  valid : Bool
  format_valid : Bool
  init_success : Bool
  validate_output : Str
  errors : List Str
  warnings : List Str
deriving DecidableEq

/-- One entry of the `terraform validate -json` diagnostics payload. -/
structure Diagnostic where
  severity : Option Str
  summary : Option Str
  detail : Option Str
deriving DecidableEq

/-- The parsed `terraform validate -json` payload. -/
structure TfValidateJson where
  valid : Option Bool
  diagnostics : Option (List Diagnostic)
deriving DecidableEq

/-- What `json.loads` makes of the validate stdout: empty stdout (the
`if val_out:` else-branch), a parse exception, or a parsed payload. -/
inductive ValStdout where
  | empty
  | unparseable
  | parsed (j : TfValidateJson)
deriving DecidableEq

/-- Outcomes of the external `terraform` subprocess calls driven by
`validate_terraform` (exit codes and captured streams; `val_parse` is the
`json.loads` view of `val_out_text`). -/
structure SandboxEnv where
  fmt_exit : Int
  init_exit : Int
  init_err : Str
  val_exit : Int
  val_out_text : Str
  val_err : Str
  val_parse : ValStdout
deriving DecidableEq

/-- `SecurityScanResult` dataclass. -/
structure SecurityScanResult where
  passed : Bool
  critical_issues : Nat
  high_issues : Nat
  medium_issues : Nat
  low_issues : Nat
  findings : List (List (Str × Str))
  scanner : Str
deriving DecidableEq

/-- `TestResult` dataclass (the wall-clock `timestamp` string is omitted
from the model). -/
structure TestResult where
  status : Str
  validation : Option ValidationResult
  security_scans : List SecurityScanResult
  plan_output : Option Str
  overall_passed : Bool
  summary : Str
deriving DecidableEq

/-- The diagnostics loop of `validate_terraform`: each diagnostic becomes
an error or a warning according to its own severity field
(default `error`). -/
def diagFold (acc : List Str × List Str) (d : Diagnostic) :
    List Str × List Str :=
  let severity := d.severity.getD "error".data
  let msg := d.summary.getD [] ++ ": ".data ++ d.detail.getD []
  if severity = "error".data then (acc.1 ++ [msg], acc.2)
  else (acc.1, acc.2 ++ [msg])

/-- `TerraformSandboxTester.validate_terraform`: format check (non-fatal,
warning only), then `terraform init` — failure returns immediately with
`valid = false` — then `terraform validate -json` with the three stdout
cases of the source's `try/except`. -/
def validate_terraform (env : SandboxEnv) : ValidationResult :=
  let format_valid := env.fmt_exit == 0
  let warnings : List Str :=
    if format_valid then [] else ["Code is not properly formatted".data]
  let init_success := env.init_exit == 0
  if !init_success then
    ⟨false, format_valid, false, env.init_err,
      ["Terraform init failed: ".data ++ env.init_err], warnings⟩
  else
    let validate_output := env.val_out_text ++ env.val_err
    match env.val_parse with
    | .parsed j =>
      let r := (j.diagnostics.getD []).foldl diagFold ([], warnings)
      ⟨j.valid.getD false, format_valid, init_success, validate_output,
        r.1, r.2⟩
    | .empty =>
      let valid := env.val_exit == 0
      ⟨valid, format_valid, init_success, validate_output,
        if valid then []
        else [if !env.val_err.isEmpty then env.val_err
              else "Validation failed".data],
        warnings⟩
    | .unparseable =>
      let valid := env.val_exit == 0
      ⟨valid, format_valid, init_success, validate_output,
        if valid then [] else [env.val_err], warnings⟩

/-- Decimal representation of a count, for the summary text. -/
def natStr (n : Nat) : Str := (Nat.repr n).data

/-- `TerraformSandboxTester._generate_summary`. -/
def generate_summary (validation : ValidationResult)
    (security_scans : List SecurityScanResult) (overall_passed : Bool) :
    Str :=
  let base := ["TEST SUMMARY".data, List.replicate 40 (Char.ofNat 45),
    "Validation: ".data ++
      (if validation.valid then "PASSED".data else "FAILED".data)]
  let errPart :=
    if !validation.errors.isEmpty then
      ["  Errors: ".data ++ natStr validation.errors.length] ++
        (validation.errors.take 3).map (fun e => "    - ".data ++ e)
    else []
  let warnPart :=
    if !validation.warnings.isEmpty then
      ["  Warnings: ".data ++ natStr validation.warnings.length]
    else []
  let secPart :=
    if !security_scans.isEmpty then
      ["\nSecurity Scans: ".data ++ natStr security_scans.length] ++
        security_scans.foldr (fun scan acc =>
          (["  ".data ++ scan.scanner ++ ": ".data ++
            (if scan.passed then "PASSED".data else "FAILED".data)] ++
           (if !scan.passed then
             ["    Critical: ".data ++ natStr scan.critical_issues ++
              ", High: ".data ++ natStr scan.high_issues]
            else []) ++ acc)) []
    else []
  let overallPart := ["\nOVERALL: ".data ++
    (if overall_passed then "PASSED".data else "FAILED".data)]
  List.intercalate ['\n'] (base ++ errPart ++ warnPart ++ secPart ++
    overallPart)

/-- `TerraformSandboxTester.test_terraform_code` on its normal (no
exception) path: validation, then security scans and plan generation, both
gated on `validation.valid`; `tfsecR`/`checkovR` are the scanner oracles
(`none` = scanner absent or failed, soft-skipped) and `planR` the
`terraform plan` output text (`generate_plan` returns the stdout on
success and the stderr on failure — never `None`). -/
def test_terraform_code (env : SandboxEnv)
    (tfsecR checkovR : Option SecurityScanResult) (planR : Str)
    (run_security_scan : Bool := true) (generate_plan : Bool := true) :
    TestResult :=
  let validation := validate_terraform env
  let security_scans :=
    if run_security_scan && validation.valid then
      (match tfsecR with | some r => [r] | none => []) ++
      (match checkovR with | some r => [r] | none => [])
    else []
  let plan_output := if generate_plan && validation.valid then some planR
    else none
  let overall_passed := validation.valid &&
    security_scans.all (fun scan => scan.passed)
  let summary := generate_summary validation security_scans overall_passed
  ⟨if overall_passed then "success".data else "failed".data,
    some validation, security_scans, plan_output, overall_passed, summary⟩

end Sandbox

/-- C7: whenever the validation phase reports `valid = false` — in
particular whenever `terraform init` fails, which makes
`validate_terraform` return immediately with `valid = false` — no security
scanner is invoked (`security_scans = []`) and no plan is generated
(`plan_output = none`). -/
theorem test_terraform_code_gates_on_validity :
    ∀ (env : Sandbox.SandboxEnv)
      (tfsecR checkovR : Option Sandbox.SecurityScanResult) (planR : Str)
      (rs gp : Bool),
      ((Sandbox.validate_terraform env).valid = false →
        (Sandbox.test_terraform_code env tfsecR checkovR planR
          rs gp).security_scans = [] ∧
        (Sandbox.test_terraform_code env tfsecR checkovR planR
          rs gp).plan_output = none) ∧
      (env.init_exit ≠ 0 →
        (Sandbox.validate_terraform env).valid = false ∧
        (Sandbox.validate_terraform env).init_success = false) := by
  intro env tfsecR checkovR planR rs gp
  constructor
  · intro hv
    constructor
    · simp [Sandbox.test_terraform_code, hv]
    · simp [Sandbox.test_terraform_code, hv]
  · intro hinit
    have hne : (env.init_exit == 0) = false := beq_eq_false_iff_ne.mpr hinit
    constructor <;> simp [Sandbox.validate_terraform, hne]

/-- Concrete environment for the C7 witness: `terraform init` exits
non-zero. -/
def c7env : Sandbox.SandboxEnv :=
  ⟨0, 1, "backend error".data, 0, [], [], .empty⟩

/-- Witness for C7: with a failing `terraform init`, validation is invalid
and the test result carries no security scans and no plan, even with
scanners available and both phases requested. -/
theorem test_terraform_code_gates_on_validity_witness :
    (Sandbox.validate_terraform c7env).valid = false ∧
    (Sandbox.test_terraform_code c7env
      (some ⟨true, 0, 0, 0, 0, [], "tfsec".data⟩) none "plan".data
      true true).security_scans = [] ∧
    (Sandbox.test_terraform_code c7env
      (some ⟨true, 0, 0, 0, 0, [], "tfsec".data⟩) none "plan".data
      true true).plan_output = none := by
  have h := test_terraform_code_gates_on_validity c7env
    (some ⟨true, 0, 0, 0, 0, [], "tfsec".data⟩) none "plan".data true true
  have hv : (Sandbox.validate_terraform c7env).valid = false :=
    (h.2 (by decide)).1
  exact ⟨hv, (h.1 hv).1, (h.1 hv).2⟩

/-! ### MultiStrategyRetrieval (`rag_pipeline.py`) -/

/-- One match of the similarity-index response
(`match.get('metadata', {})`, `match.get('score', 0.0)`). -/
structure PineconeMatch where
  metadata : Option (List (Str × Str))
  score : Option ℚ

/-- The similarity-index response; `matchList` models the `matches` key
(`results.get('matches', [])`; `matches` is reserved in Lean). -/
structure PineconeResponse where
  matchList : Option (List PineconeMatch)

/-- The match-to-`RetrievalResult` loop shared by the three search
methods: content from `metadata['text']` (default empty), score default
0.0, tagged with the strategy. -/
def toRetrievalResults (strategy : SearchStrategy)
    (resp : PineconeResponse) : List RetrievalResult :=
  (resp.matchList.getD []).map (fun m =>
    ⟨(pyLookup (m.metadata.getD []) "text".data).getD [],
      m.score.getD 0, m.metadata.getD [], strategy⟩)

/-- `MultiStrategyRetrieval.semantic_search`; the oracle is the index
round trip, `Except.error` modelling a raised exception. -/
def semantic_search (o : Except Str PineconeResponse) :
    Except Str (List RetrievalResult) :=
  o.map (toRetrievalResults .semantic)

/-- `MultiStrategyRetrieval.structural_search`. -/
def structural_search (o : Except Str PineconeResponse) :
    Except Str (List RetrievalResult) :=
  o.map (toRetrievalResults .structural)

/-- `MultiStrategyRetrieval.code_search`. -/
def code_search (o : Except Str PineconeResponse) :
    Except Str (List RetrievalResult) :=
  o.map (toRetrievalResults .code)

/-- `MultiStrategyRetrieval.multi_strategy_retrieve`: the three searches
run sequentially with no `try/except`, so an exception in any one
propagates; on success the results are concatenated in strategy order. -/
def multi_strategy_retrieve (semO structO codeO :
    Except Str PineconeResponse) : Except Str (List RetrievalResult) := do
  let semantic_results ← semantic_search semO
  let structural_results ← structural_search structO
  let code_results ← code_search codeO
  pure (semantic_results ++ structural_results ++ code_results)

/-- C8 (amended): `multi_strategy_retrieve` has no per-strategy error
recovery: when all three index queries succeed it returns the
concatenation of the three result lists, but an exception raised by any
one strategy propagates and aborts the whole call (the later strategies do
not run and no partial concatenation is returned). -/
theorem multi_strategy_retrieve_propagates :
    ∀ semO structO codeO : Except Str PineconeResponse,
      (∀ rs rt rc, semO = .ok rs → structO = .ok rt → codeO = .ok rc →
        multi_strategy_retrieve semO structO codeO =
          .ok (toRetrievalResults .semantic rs ++
            toRetrievalResults .structural rt ++
            toRetrievalResults .code rc)) ∧
      (∀ e, semO = .error e →
        multi_strategy_retrieve semO structO codeO = .error e) ∧
      (∀ rs e, semO = .ok rs → structO = .error e →
        multi_strategy_retrieve semO structO codeO = .error e) ∧
      (∀ rs rt e, semO = .ok rs → structO = .ok rt → codeO = .error e →
        multi_strategy_retrieve semO structO codeO = .error e) := by
  intro semO structO codeO
  refine ⟨?_, ?_, ?_, ?_⟩
  · rintro rs rt rc rfl rfl rfl; rfl
  · rintro e rfl; rfl
  · rintro rs e rfl rfl; rfl
  · rintro rs rt e rfl rfl rfl; rfl

/-- Concrete index response for the C8 counterexample and witness. -/
def c8resp : PineconeResponse :=
  ⟨some [⟨some [("text".data, "doc".data)], some 1⟩]⟩

/-- Counterexample to C8 as stated: when the semantic strategy raises, the
whole retrieval call aborts with that error — it does not execute the other
two strategies and return the concatenation of their results. -/
theorem multi_strategy_retrieve_abort_cex :
    multi_strategy_retrieve (.error "pinecone down".data) (.ok c8resp)
      (.ok c8resp) = .error "pinecone down".data ∧
    multi_strategy_retrieve (.error "pinecone down".data) (.ok c8resp)
      (.ok c8resp) ≠
      .ok (toRetrievalResults .structural c8resp ++
        toRetrievalResults .code c8resp) := by
  refine ⟨rfl, ?_⟩
  intro h
  rw [show multi_strategy_retrieve (.error "pinecone down".data)
    (.ok c8resp) (.ok c8resp) =
    Except.error "pinecone down".data from rfl] at h
  exact Except.noConfusion h

/-- Witness for the amended C8 theorem at concrete oracle outcomes. -/
theorem multi_strategy_retrieve_propagates_witness :
    multi_strategy_retrieve (.ok c8resp) (.ok c8resp) (.ok c8resp) =
      .ok (toRetrievalResults .semantic c8resp ++
        toRetrievalResults .structural c8resp ++
        toRetrievalResults .code c8resp) ∧
    multi_strategy_retrieve (.error "down".data) (.ok c8resp)
      (.ok c8resp) = .error "down".data := by
  have h1 := multi_strategy_retrieve_propagates (.ok c8resp) (.ok c8resp)
    (.ok c8resp)
  have h2 := multi_strategy_retrieve_propagates (.error "down".data)
    (.ok c8resp) (.ok c8resp)
  exact ⟨h1.1 c8resp c8resp c8resp rfl rfl rfl, h2.2.1 "down".data rfl⟩
